import Mathlib

/-!
# Verification of the go-local-backup engine

Shallow embedding of the backup engine of `borsosl/go-local-backup`
(`backup.go` together with the dependency slots of `dependency.go`).

Machine integers of the source (`int`, `int64`) are modelled as `Nat`/`Int`
(all quantities stay far from the 64-bit bounds), timestamps (`time.Time`)
as `Int` with `Before` as `<`, and the external collaborators of the engine
(the filesystem capability `stat`/`walkDir`/`chmod`/`mkdirAll`/`copy`, the
regular-expression engine of the standard library, and the lexical path
helpers `filepath.VolumeName`/`filepath.Dir`) as fields of a `Dependencies`
record, exactly like the mutable function slots of `dependency.go` that the
repository's tests substitute.  Filesystem mutations are recorded as an
event trace `FsEvent` so that frame properties can be stated.  The Go
`panic`/`recover` pair used for the too-many-errors abort is modelled by an
explicit abort flag threaded through every function that can reach `msg`.
-/

namespace LocalBackup

/-- Metadata of one filesystem entry, the part of Go's `fs.FileInfo` the
engine reads: `Size()`, `ModTime()`, `IsDir()`, `Mode()&fs.ModeSymlink`
and `Mode()&0200` (the owner-write permission bit). -/
structure FileInfo where
  size : Int
  modTime : Int
  isDir : Bool
  isSymlink : Bool
  writeBit : Bool
deriving Repr, DecidableEq

/-- One invocation of a mutating operation of the filesystem capability,
with the arguments the engine passes. -/
inductive FsEvent where
  | chmod (path : String) (perm : Nat)
  | mkdirAll (path : String) (perm : Nat)
  | copy (src : String) (dest : String)
deriving Repr, DecidableEq

/-- `backupCounts` of backup.go: stats for a directory source. -/
structure backupCounts where
  dir : Nat
  files : Nat
  copied : Nat
deriving Repr, DecidableEq

mutual

/-- An in-memory source tree, walked exactly as `filepath.WalkDir` walks a
real directory: the entry itself first, then its children depth-first.
A file node carries `none` when `DirEntry.Info()` would fail. -/
inductive FsTree where
  | file (name : String) (info : Option FileInfo) : FsTree
  | dir (name : String) (entries : FsForest) : FsTree

/-- The ordered children of a directory node. -/
inductive FsForest where
  | nil : FsForest
  | cons (t : FsTree) (ts : FsForest) : FsForest

end

/-- Name of a tree node (`DirEntry.Name()`). -/
def FsTree.name : FsTree → String
  | .file n _ => n
  | .dir n _ => n

/-- Builds a forest from a list of trees. -/
def FsForest.ofList : List FsTree → FsForest
  | [] => .nil
  | t :: ts => .cons t (FsForest.ofList ts)

/-- The engine's external collaborators and tunables: the function slots of
`dependency.go` (`stat`, `mkdirAll`, `copy`; `chmod` only ever has its
result ignored, so only its invocation is traced), the walked source trees
(`walkDir`), the regular-expression engine (`compile`/`matches` over an
abstract compiled-pattern type `R`), the lexical path helpers of
`path/filepath`, the platform flag `isWin` with the path separator, the
package-level tunables `maxErrors`, `printDotFileCount` and `destDirPerm`,
and the calendar computation of the max-age directive. -/
structure Dependencies (R : Type) where
  isWin : Bool
  sep : Char
  maxErrors : Nat
  printDotFileCount : Nat
  destDirPerm : Nat
  rexMatch : R → String → Bool
  compile : String → Option R
  stat : String → Option FileInfo
  fsTree : String → Option FsTree
  mkdirAllOk : String → Bool
  copyResult : String → String → Option String
  volumeName : String → String
  dirName : String → String
  daysAgoMidnight : Int → Int

/-- `backupContext` of backup.go: data passed around during backup, plus
the output lines written so far and the trace of mutating filesystem
calls. -/
structure backupContext (R : Type) where
  dryRun : Bool
  targetPath : String
  startDate : Int
  maxSize : Int
  exclude : List R
  count : backupCounts
  msgs : List String
  out : List String
  events : List FsEvent

/-- Result of one run of `Backup`: success, the fatal missing-target error,
or the aggregated `<N> errors` failure. -/
inductive RunResult where
  | ok
  | fatal (text : String)
  | errors (n : Nat)
deriving Repr, DecidableEq

/-- How the configuration loop of `Backup` ended: normally, by the fatal
missing-target return, or by the too-many-errors panic. -/
inductive LoopOutcome where
  | normal
  | fatalTarget
  | panicked
deriving Repr, DecidableEq

/-! ## String helpers (models of the Go standard library functions used) -/

/-- Whitespace recognised by Go's `strings.TrimSpace` (ASCII part). -/
def goSpace (c : Char) : Bool :=
  c = ' ' || c = '\t' || c = '\n' || c = '\r' || c.toNat = 11 || c.toNat = 12

/-- Whitespace class `\s` of the RE2 engine: space, tab, newline,
form feed, carriage return. -/
def reSpace (c : Char) : Bool :=
  c = ' ' || c = '\t' || c = '\n' || c = '\r' || c.toNat = 12

/-- `strings.TrimSpace`. -/
def goTrim (s : String) : String :=
  String.mk (((s.toList.dropWhile goSpace).reverse.dropWhile goSpace).reverse)

/-- Drop the run of `\s` characters consumed greedily by a `\s*` in the
directive patterns before the capture group. -/
def dropLeadingRe (s : String) : String :=
  String.mk (s.toList.dropWhile reSpace)

/-- `p` is a prefix of `s` (`strings.HasPrefix`; the anchored-prefix part
of the directive patterns). -/
def strStarts (p s : String) : Bool := p.toList.isPrefixOf s.toList

/-- Drop the first `n` characters of `s` (`s[n:]`; every string in scope
is ASCII, so bytes and characters agree). -/
def strDrop (s : String) (n : Nat) : String := String.mk (s.toList.drop n)

/-- `strings.TrimSuffix(s, string(sep))` for the one-character separator
string: drops a final separator character. -/
def trimSepSuffix (s : String) (sep : Char) : String :=
  if s.toList.getLast? = some sep then String.mk s.toList.dropLast else s

/-- `strings.Split(arg, ",,")`: splits on the literal two-character
delimiter, left to right, no overlap. -/
def splitDoubleComma : List Char → List (List Char)
  | [] => [[]]
  | ',' :: ',' :: rest => [] :: splitDoubleComma rest
  | c :: rest =>
    match splitDoubleComma rest with
    | [] => [[c]]
    | p :: ps => (c :: p) :: ps

/-- `strconv.Atoi` / `strconv.ParseInt(_, 10, 64)`: optional sign, then a
nonempty run of digits and nothing else (overflow is not modelled; every
number in scope is small). -/
def goAtoi (s : String) : Option Int :=
  let cs := s.toList
  let signed : Int × List Char :=
    match cs with
    | '+' :: r => (1, r)
    | '-' :: r => (-1, r)
    | r => (1, r)
  if signed.2 = [] || !signed.2.all Char.isDigit then none
  else some (signed.1 * (signed.2.foldl (fun a c => a * 10 + (c.toNat - 48)) (0 : Nat) : Nat))

/-! ### The six anchored directive patterns of backup.go

`commentRex = ^#`, `targetRex = ^=>\s*(.*)`, `maxAgeRex = ^!@\s*(.*)\s*$`,
`maxSizeRex = ^!>\s*(.*)\s*$`, `excludeRex = ^!\s*(.*)`,
`extendExcludeRex = ^!\+\s*(.*)`.  Each is a literal prefix followed by a
greedy `\s*` and a greedy capture of the rest of the line (the trailing
`\s*$` of the age/size patterns matches the empty string because the
capture is greedy), so each is modelled as a prefix test plus
`dropLeadingRe` for the capture. -/

/-- Capture of `targetRex` when the line matches. -/
def targetCapture (line : String) : Option String :=
  if strStarts "=>" line then some (dropLeadingRe (strDrop line 2)) else none

/-- Capture of `maxAgeRex` when the line matches. -/
def maxAgeCapture (line : String) : Option String :=
  if strStarts "!@" line then some (dropLeadingRe (strDrop line 2)) else none

/-- Capture of `maxSizeRex` when the line matches. -/
def maxSizeCapture (line : String) : Option String :=
  if strStarts "!>" line then some (dropLeadingRe (strDrop line 2)) else none

/-- Capture of `extendExcludeRex` when the line matches. -/
def extendExcludeCapture (line : String) : Option String :=
  if strStarts "!+" line then some (dropLeadingRe (strDrop line 2)) else none

/-- Capture of `excludeRex` when the line matches. -/
def excludeCapture (line : String) : Option String :=
  if strStarts "!" line then some (dropLeadingRe (strDrop line 1)) else none

/-! ## The engine -/

variable {R : Type}

/-- `msg` of backup.go: adds to the collected messages; when their number
reaches `maxErrors` the Go code panics, modelled by the returned abort
flag. -/
def msg (deps : Dependencies R) (ctx : backupContext R) (m : String) :
    backupContext R × Bool :=
  let ctx := { ctx with msgs := ctx.msgs ++ [m] }
  (ctx, decide (deps.maxErrors ≤ ctx.msgs.length))

/-- The pattern loop of `parseExclude`: empty pieces are skipped, pieces
that fail to compile are recorded as aggregated errors (with the source's
literal message, misspelling included), compiled pieces are appended. -/
def parseParts (deps : Dependencies R) (ctx : backupContext R) :
    List String → backupContext R × Bool
  | [] => (ctx, false)
  | p :: ps =>
    if p = "" then parseParts deps ctx ps
    else
      match deps.compile p with
      | none =>
        let r := msg deps ctx ("Error in exlude regexp: " ++ p)
        if r.2 then (r.1, true) else parseParts deps r.1 ps
      | some rex => parseParts deps { ctx with exclude := ctx.exclude ++ [rex] } ps

/-- `parseExclude` of backup.go: collects active patterns for exclusion; a
plain directive first empties the set, then the trimmed argument is split
on the literal delimiter `,,` and the pieces are processed by
`parseParts`. -/
def parseExclude (deps : Dependencies R) (ctx : backupContext R) (arg : String)
    (extend : Bool) : backupContext R × Bool :=
  let ctx := if extend then ctx else { ctx with exclude := [] }
  parseParts deps ctx ((splitDoubleComma (goTrim arg).toList).map String.mk)

/-- `processNonPathLine` of backup.go: classifies one (already trimmed)
configuration line; returns the new state, whether the line was consumed
as a non-source line, and the abort flag of a possible too-many-errors
panic raised while parsing exclude patterns. -/
def processNonPathLine (deps : Dependencies R) (ctx : backupContext R)
    (line : String) : backupContext R × Bool × Bool :=
  if line = "" || strStarts "#" line then (ctx, true, false)
  else
    match targetCapture line with
    | some cap =>
      let tp := trimSepSuffix cap deps.sep
      ({ ctx with targetPath := tp, out := ctx.out ++ ["target " ++ tp] }, true, false)
    | none =>
    match maxAgeCapture line with
    | some cap =>
      match goAtoi cap with
      | none =>
        ({ ctx with out := ctx.out ++ ["WARN: Expected only number in: " ++ line] },
          true, false)
      | some n =>
        let sd := deps.daysAgoMidnight n
        ({ ctx with startDate := sd, out := ctx.out ++ ["since " ++ toString sd] },
          true, false)
    | none =>
    match maxSizeCapture line with
    | some cap =>
      match goAtoi cap with
      | none =>
        ({ ctx with out := ctx.out ++ ["WARN: Expected only number in: " ++ line] },
          true, false)
      | some n =>
        ({ ctx with maxSize := n, out := ctx.out ++ ["max size " ++ toString n] },
          true, false)
    | none =>
    match extendExcludeCapture line with
    | some cap =>
      let r := parseExclude deps ctx cap true
      if r.2 then (r.1, true, true)
      else ({ r.1 with out := r.1.out ++ ["extend exclude " ++ cap] }, true, false)
    | none =>
    match excludeCapture line with
    | some cap =>
      let r := parseExclude deps ctx cap false
      if r.2 then (r.1, true, true)
      else ({ r.1 with out := r.1.out ++ ["exclude " ++ cap] }, true, false)
    | none => (ctx, false, false)

/-- The tail of `handleFile` after the destination stat has been handled:
the dry-run report-and-count branch, else the copy invocation with its
error handling. -/
def handleFileTail (deps : Dependencies R) (ctx : backupContext R)
    (srcPath destPath : String) : backupContext R × Bool :=
  if ctx.dryRun then
    ({ ctx with out := ctx.out ++ [srcPath],
                count := { ctx.count with copied := ctx.count.copied + 1 } }, false)
  else
    let ctx := { ctx with events := ctx.events ++ [.copy srcPath destPath] }
    match deps.copyResult srcPath destPath with
    | some e => msg deps ctx e
    | none => ({ ctx with count := { ctx.count with copied := ctx.count.copied + 1 } }, false)

/-- `handleFile` of backup.go: copies a file if not filtered.  The file
counter is bumped (with the non-dry-run progress dot), then the symlink,
size, age and exclude filters short-circuit in order; then the destination
path is formed by stripping the volume prefix and re-rooting under
`targetPath`, the destination is statted, the stale-destination chmod or
missing-destination mkdirAll happens, and `handleFileTail` finishes. -/
def handleFile (deps : Dependencies R) (ctx : backupContext R)
    (srcPath : String) (srcInfo : FileInfo) : backupContext R × Bool :=
  let ctx := { ctx with count := { ctx.count with files := ctx.count.files + 1 } }
  let ctx :=
    if !ctx.dryRun && ctx.count.files % deps.printDotFileCount = 0
    then { ctx with out := ctx.out ++ ["."] } else ctx
  if srcInfo.isSymlink then (ctx, false)
  else if ctx.maxSize < srcInfo.size then (ctx, false)
  else if srcInfo.modTime < ctx.startDate then (ctx, false)
  else if ctx.exclude.any (fun rex => deps.rexMatch rex srcPath) then (ctx, false)
  else
    let vol := deps.volumeName srcPath
    let destPath := ctx.targetPath ++ strDrop srcPath vol.length
    match deps.stat destPath with
    | some destInfo =>
      if !(destInfo.modTime < srcInfo.modTime) then (ctx, false)
      else
        let ctx :=
          if deps.isWin && destInfo.writeBit
          then { ctx with events := ctx.events ++ [.chmod destPath deps.destDirPerm] }
          else ctx
        handleFileTail deps ctx srcPath destPath
    | none =>
      if !ctx.dryRun then
        let dirs := deps.dirName destPath
        let ctx := { ctx with events := ctx.events ++ [.mkdirAll dirs deps.destDirPerm] }
        if deps.mkdirAllOk dirs then handleFileTail deps ctx srcPath destPath
        else msg deps ctx ("Cannot create dirs for: " ++ destPath)
      else handleFileTail deps ctx srcPath destPath

/-- Path of a child entry inside a walked directory, as `filepath.WalkDir`
forms it (`filepath.Join` of the parent path and the entry name; the
cleaning `Join` performs is the identity on the well-formed names walked
here). -/
def childPath (deps : Dependencies R) (parent : String) (t : FsTree) : String :=
  (parent.push deps.sep) ++ t.name

mutual

/-- The walk callback of `handleDir` applied to one visited entry, plus
the recursion of `filepath.WalkDir` itself: a directory entry is tested —
with a trailing separator appended — against every exclude pattern and
pruned on a match (`fs.SkipDir`), otherwise the directory counter is
bumped and its children are walked; a file entry goes to `handleFile`
when its `Info()` is available. -/
def walkNode (deps : Dependencies R) (ctx : backupContext R) (path : String) :
    FsTree → backupContext R × Bool
  | .file _ none => (ctx, false)
  | .file _ (some info) => handleFile deps ctx path info
  | .dir _ entries =>
    let dirPath := path.push deps.sep
    if ctx.exclude.any (fun rex => deps.rexMatch rex dirPath) then (ctx, false)
    else
      walkForest deps { ctx with count := { ctx.count with dir := ctx.count.dir + 1 } }
        path entries

/-- Walks the children of a directory in order, stopping at a
too-many-errors abort. -/
def walkForest (deps : Dependencies R) (ctx : backupContext R) (parent : String) :
    FsForest → backupContext R × Bool
  | .nil => (ctx, false)
  | .cons t ts =>
    let r := walkNode deps ctx (childPath deps parent t) t
    if r.2 then r else walkForest deps r.1 parent ts

end

/-- Summary line printed after one directory source. -/
def summaryLine (c : backupCounts) : String :=
  "Dirs: " ++ toString c.dir ++ ", Files: " ++ toString c.files ++
    ", Copied: " ++ toString c.copied

/-- `handleDir` of backup.go: resets the counters, recurses the source
directory via the walk, then terminates the progress-dot stream when the
file counter reached the threshold and prints the summary line. -/
def handleDir (deps : Dependencies R) (ctx : backupContext R) (path : String) :
    backupContext R × Bool :=
  let ctx := { ctx with count := ⟨0, 0, 0⟩ }
  let r :=
    match deps.fsTree path with
    | some t => walkNode deps ctx path t
    | none => (ctx, false)
  if r.2 then r
  else
    let ctx := r.1
    let ctx :=
      if deps.printDotFileCount ≤ ctx.count.files
      then { ctx with out := ctx.out ++ [""] } else ctx
    ({ ctx with out := ctx.out ++ [summaryLine ctx.count] }, false)

/-- The fatal error text of backup.go's missing-target check. -/
def targetErrText : String := "target path must be specified before any source paths"

/-- The configuration loop of `Backup`: trims each line, lets
`processNonPathLine` consume directives, enforces the mandatory target
before any source, stats the source (a failure is an aggregated per-file
error), prints the source header and dispatches to `handleDir` or
`handleFile`. -/
def backupLines (deps : Dependencies R) (ctx : backupContext R) :
    List String → backupContext R × LoopOutcome
  | [] => (ctx, .normal)
  | line :: rest =>
    let l := goTrim line
    let p := processNonPathLine deps ctx l
    if p.2.2 then (p.1, .panicked)
    else if p.2.1 then backupLines deps p.1 rest
    else if p.1.targetPath = "" then
      ({ p.1 with out := p.1.out ++ ["FATAL: " ++ targetErrText] }, .fatalTarget)
    else
      match deps.stat l with
      | none =>
        let r := msg deps p.1 ("Cannot stat, skipping: " ++ l)
        if r.2 then (r.1, .panicked) else backupLines deps r.1 rest
      | some info =>
        let ctx1 := { p.1 with out := p.1.out ++ [l] }
        let r :=
          if info.isDir then handleDir deps ctx1 l
          else handleFile deps ctx1 l info
        if r.2 then (r.1, .panicked) else backupLines deps r.1 rest

/-- The initial `backupContext` of `Backup`: empty target, zero time as
the start date (`time.Time{}`), `math.MaxInt64` as the size bound. -/
def initCtx (dryRun : Bool) : backupContext R :=
  { dryRun := dryRun, targetPath := "", startDate := 0,
    maxSize := 9223372036854775807, exclude := [], count := ⟨0, 0, 0⟩,
    msgs := [], out := [], events := [] }

/-- The deferred function of `Backup`: prints a recovered panic value,
then — when any messages were aggregated — prints the error block and
replaces the returned error by the aggregated `<N> errors` one. -/
def finishRun (ctx : backupContext R) (oc : LoopOutcome) :
    backupContext R × RunResult :=
  let ctx :=
    if oc = .panicked
    then { ctx with out := ctx.out ++ ["Quitting due to too many errors!"] } else ctx
  if ctx.msgs.length ≠ 0 then
    ({ ctx with out := ctx.out ++ [toString ctx.msgs.length ++ " errors:"] ++ ctx.msgs },
      .errors ctx.msgs.length)
  else
    match oc with
    | .fatalTarget => (ctx, .fatal targetErrText)
    | _ => (ctx, .ok)

/-- `Backup` of backup.go: runs the configuration loop from the initial
state and applies the deferred recovery / error-reporting logic to form
the run result. -/
def Backup (deps : Dependencies R) (config : List String) (dryRun : Bool) :
    backupContext R × RunResult :=
  let r := backupLines deps (initCtx dryRun) config
  finishRun r.1 r.2

/-! ## Helpers for stating properties -/

/-- Whether `processNonPathLine` consumes a line, as a function of the line
alone: empty lines, comments and the five directive forms are consumed,
anything else is a source path. -/
def lineConsumed (line : String) : Bool :=
  line = "" || strStarts "#" line || (targetCapture line).isSome ||
    (maxAgeCapture line).isSome || (maxSizeCapture line).isSome ||
    (extendExcludeCapture line).isSome || (excludeCapture line).isSome

/-- The destination path `handleFile` computes for a source path under a
target root: the source's volume prefix is stripped and the remainder is
appended to the target root. -/
def destPathOf (deps : Dependencies R) (tp srcPath : String) : String :=
  tp ++ strDrop srcPath (deps.volumeName srcPath).length

/-- Shape of a mutating filesystem call made on behalf of source path
`src` under target root `tp`: a chmod of the destination path, a mkdirAll
of its lexical parent, or a copy from `src` to the destination path. -/
def mutationShaped (deps : Dependencies R) (tp src : String) : FsEvent → Prop
  | .chmod p perm => p = destPathOf deps tp src ∧ perm = deps.destDirPerm
  | .mkdirAll p perm => p = deps.dirName (destPathOf deps tp src) ∧ perm = deps.destDirPerm
  | .copy s d => s = src ∧ d = destPathOf deps tp src

mutual

/-- The file entries a walk of the tree can reach, with the paths the walk
would form for them. -/
def nodeFiles (deps : Dependencies R) (path : String) : FsTree → List (String × FileInfo)
  | .file _ none => []
  | .file _ (some i) => [(path, i)]
  | .dir _ entries => forestFiles deps path entries

/-- `nodeFiles` over the children of a directory. -/
def forestFiles (deps : Dependencies R) (parent : String) : FsForest → List (String × FileInfo)
  | .nil => []
  | .cons t ts =>
    nodeFiles deps (childPath deps parent t) t ++ forestFiles deps parent ts

end

/-! ## Concrete instantiations for witnesses and counterexamples

The abstract collaborators (regular-expression engine, filesystem, lexical
path helpers) are instantiated here with small executable stand-ins whose
behaviour at every point a witness evaluates agrees with the real Go
collaborators (`regexp`, `os`, `path/filepath`). -/

/-- Does the character list `p` occur inside the second list? -/
def subOccurs (p : List Char) : List Char → Bool
  | [] => p.isEmpty
  | c :: rest => p.isPrefixOf (c :: rest) || subOccurs p rest

/-- Substring occurrence, the matching mode of a regular expression that is
a literal: does `p` occur inside `s`?  (Used to instantiate `rexMatch` for
literal patterns.) -/
def subMatch (p s : String) : Bool := subOccurs p.toList s.toList

/-- `strings.Split(p, "/")`. -/
def splitSlash : List Char → List (List Char)
  | [] => [[]]
  | '/' :: rest => [] :: splitSlash rest
  | c :: rest =>
    match splitSlash rest with
    | [] => [[c]]
    | p :: ps => (c :: p) :: ps

/-- `strings.Join(parts, "/")`. -/
def joinSlash : List String → String
  | [] => ""
  | [p] => p
  | p :: ps => p ++ "/" ++ joinSlash ps

/-- `path.Clean` of Go for the `/` separator: drops empty and `.`
components, resolves `..` lexically, keeps a leading root. -/
def cleanSlash (p : String) : String :=
  if p = "" then "." else
  let rooted := strStarts "/" p
  let comps := ((splitSlash p.toList).map String.mk).foldl
    (fun acc c =>
      if c = "" || c = "." then acc
      else if c = ".." then
        match acc with
        | [] => if rooted then [] else [".."]
        | a :: rest => if a = ".." then c :: a :: rest else rest
      else c :: acc) []
  let body := joinSlash comps.reverse
  if rooted then (if body = "" then "/" else "/" ++ body)
  else (if body = "" then "." else body)

/-- `filepath.Dir` of Go for the `/` separator (no volumes): everything up
to the final separator, cleaned; `.` when there is no separator. -/
def dirSlash (p : String) : String :=
  let cs := p.toList
  let tail := cs.reverse.takeWhile (fun c => c ≠ '/')
  if tail.length = cs.length then cleanSlash ""
  else cleanSlash (String.mk (cs.take (cs.length - tail.length)))

/-- A `Dependencies` instance with inert collaborators, specialised by the
individual witnesses via record updates: Unix platform, `/` separator, the
production values of the three package-level tunables, literal-substring
pattern matching, every pattern compiling, an empty filesystem. -/
def baseDeps : Dependencies String :=
  { isWin := false, sep := '/', maxErrors := 100, printDotFileCount := 100,
    destDirPerm := 0o770,
    rexMatch := subMatch, compile := fun p => some p,
    stat := fun _ => none, fsTree := fun _ => none,
    mkdirAllOk := fun _ => true, copyResult := fun _ _ => none,
    volumeName := fun _ => "", dirName := dirSlash,
    daysAgoMidnight := fun n => -n }

/-- Dependencies whose pattern compiler rejects the pattern `(`, exactly as
Go's `regexp.Compile("(")` fails with a missing-closing-parenthesis error;
everything else as in `baseDeps`. -/
def badPatternDeps : Dependencies String :=
  { baseDeps with compile := fun p => if p = "(" then none else some p }

/-- The patterns an exclude argument contributes: the trimmed argument is
split on `,,`, empty pieces are dropped, and each remaining piece yields
its compiled pattern when compilation succeeds. -/
def compiledOf (deps : Dependencies R) (arg : String) : List R :=
  ((splitDoubleComma (goTrim arg).toList).map String.mk).filterMap
    (fun p => if p = "" then none else deps.compile p)

/-- A source file and an equally old destination file for the idempotence
witness. -/
def syncSrcInfo : FileInfo :=
  { size := 100, modTime := 5, isDir := false, isSymlink := false, writeBit := true }

/-- Dependencies for the idempotence witness: one source tree `/s` holding
the single file `/s/f`, whose destination `/t/s/f` exists with the same
modification time. -/
def syncDeps : Dependencies String :=
  { baseDeps with
    stat := fun q => if q = "/t/s/f" then some syncSrcInfo else none
    fsTree := fun q =>
      if q = "/s" then some (.dir "s" (.ofList [.file "f" (some syncSrcInfo)]))
      else none }

/-- Context with target root `/t` over pattern type `String`. -/
def ctxT : backupContext String := { initCtx false with targetPath := "/t" }

/-- Dependencies with the error cap configured to 2 (`maxErrors = 2`), the
situation of the repository's too-many-errors test. -/
def capDeps : Dependencies String := { baseDeps with maxErrors := 2 }

/-- A configuration whose four source lines all fail to stat, producing
four per-file errors when the cap allows. -/
def fourErrConfig : List String := ["=> /t", "/n1", "/n2", "/n3", "/n4"]

/-- A read-only (owner-write bit absent) destination file, as fresh as the
source. -/
def roDest : FileInfo :=
  { size := 100, modTime := 5, isDir := false, isSymlink := false, writeBit := false }

/-- A writable destination file older than the source. -/
def staleRwDest : FileInfo :=
  { size := 100, modTime := 1, isDir := false, isSymlink := false, writeBit := true }

/-- Windows dependencies whose destination `/t/s/f` is read-only and up to
date. -/
def winRoDeps : Dependencies String :=
  { baseDeps with
    isWin := true
    destDirPerm := 0o777
    stat := fun q => if q = "/t/s/f" then some roDest else none }

/-- Windows dependencies whose destination `/t/s/f` is writable and
stale. -/
def winRwDeps : Dependencies String :=
  { baseDeps with
    isWin := true
    destDirPerm := 0o777
    stat := fun q => if q = "/t/s/f" then some staleRwDest else none }

/-- Windows dependencies for a dry run over the single file `/s/f` whose
destination exists, is stale, and is writable. -/
def dryWinDeps : Dependencies String :=
  { baseDeps with
    isWin := true
    destDirPerm := 0o777
    stat := fun q =>
      if q = "/t/s/f" then some staleRwDest
      else if q = "/s/f" then some syncSrcInfo
      else none }

/-- `ctxT` in dry-run mode. -/
def ctxTD : backupContext String := { ctxT with dryRun := true }

/-- A stat result for a directory entry. -/
def dirInfoS : FileInfo :=
  { size := 0, modTime := 0, isDir := true, isSymlink := false, writeBit := true }

/-- Dependencies with the error cap set to 1 and one source tree `/s`
holding two copyable files, the first of which fails to copy. -/
def cap1Deps : Dependencies String :=
  { baseDeps with
    maxErrors := 1
    stat := fun q => if q = "/s" then some dirInfoS else none
    fsTree := fun q =>
      if q = "/s" then
        some (.dir "s" (.ofList [.file "bad" (some syncSrcInfo),
                                 .file "good" (some syncSrcInfo)]))
      else none
    copyResult := fun s _ => if s = "/s/bad" then some "cannot copy /s/bad" else none }

/-- Dependencies whose destination-directory creation and copy capability
both fail (so both per-file failure paths are exercised). -/
def failDeps : Dependencies String :=
  { baseDeps with
    mkdirAllOk := fun _ => false
    copyResult := fun _ _ => some "copy failed" }

/-- Dependencies holding the single relative source file `f1`. -/
def relDeps : Dependencies String :=
  { baseDeps with stat := fun q => if q = "f1" then some syncSrcInfo else none }

/-- Context with target root `/b` (no trailing separator). -/
def ctxB : backupContext String := { initCtx false with targetPath := "/b" }

/-! # General lemmas -/

/-- The consumed flag of `processNonPathLine` depends on the line alone,
through the classifier `lineConsumed`. -/
theorem processNonPathLine_consumed_eq (deps : Dependencies R)
    (ctx : backupContext R) (line : String) :
    (processNonPathLine deps ctx line).2.1 = lineConsumed line := by
  unfold processNonPathLine lineConsumed
  repeat' split <;> simp_all

/-- A line that is not consumed leaves the state untouched. -/
theorem processNonPathLine_not_consumed (deps : Dependencies R)
    (ctx : backupContext R) (line : String)
    (h : lineConsumed line = false) :
    processNonPathLine deps ctx line = (ctx, false, false) := by
  unfold processNonPathLine
  unfold lineConsumed at h
  repeat' split <;> simp_all

/-! # Claim C1 -/

/-- **C1**, counterexample: with a malformed exclude pattern recorded as an
aggregated error before the first source line and no target directive, the
run does fail, but the returned failure is the aggregated `1 errors` one —
not the distinct fatal missing-target error the claim requires even in the
presence of earlier aggregated messages (the deferred error block of
`Backup` overwrites the fatal return value).  The run still processes no
files and performs no mutation. -/
theorem C1_counterexample :
    (Backup badPatternDeps ["!(", "/src"] false).2 = RunResult.errors 1 ∧
    (Backup badPatternDeps ["!(", "/src"] false).2 ≠ RunResult.fatal targetErrText ∧
    (Backup badPatternDeps ["!(", "/src"] false).1.events = [] ∧
    (Backup badPatternDeps ["!(", "/src"] false).1.msgs =
      ["Error in exlude regexp: ("] ∧
    ("FATAL: " ++ targetErrText) ∈ (Backup badPatternDeps ["!(", "/src"] false).1.out := by
  decide

/-- **C1** (amended): when a source-path line is reached while `targetPath`
is still empty, the loop halts immediately — the remaining lines are
ignored, the state is unchanged apart from the printed FATAL message, so no
files are processed and no filesystem mutation happens — and the run fails:
with the distinct fatal missing-target error if no aggregated error
messages were recorded before that line, but with the aggregated
`<N> errors` failure if some were (the deferred error block overwrites the
fatal return value). -/
theorem C1_missing_target_halt (deps : Dependencies R) (ctx : backupContext R)
    (line : String) (rest : List String)
    (hline : lineConsumed (goTrim line) = false)
    (htp : ctx.targetPath = "") :
    backupLines deps ctx (line :: rest) =
      ({ ctx with out := ctx.out ++ ["FATAL: " ++ targetErrText] },
        LoopOutcome.fatalTarget) ∧
    (finishRun { ctx with out := ctx.out ++ ["FATAL: " ++ targetErrText] }
        LoopOutcome.fatalTarget).2 =
      (if ctx.msgs.length = 0 then RunResult.fatal targetErrText
       else RunResult.errors ctx.msgs.length) := by
  constructor
  · simp only [backupLines]
    rw [processNonPathLine_not_consumed deps ctx (goTrim line) hline]
    simp [htp]
  · by_cases h : ctx.msgs.length = 0 <;> simp [finishRun, h]

/-- Witness for `C1_missing_target_halt` at a concrete input. -/
theorem C1_missing_target_halt_witness :
    backupLines baseDeps (initCtx false) ["/src"] =
      ({ (initCtx false : backupContext String) with
          out := (initCtx false : backupContext String).out ++
            ["FATAL: " ++ targetErrText] }, LoopOutcome.fatalTarget) ∧
    (finishRun { (initCtx false : backupContext String) with
          out := (initCtx false : backupContext String).out ++
            ["FATAL: " ++ targetErrText] } LoopOutcome.fatalTarget).2 =
      (if (initCtx false : backupContext String).msgs.length = 0 then
        RunResult.fatal targetErrText
       else RunResult.errors (initCtx false : backupContext String).msgs.length) :=
  C1_missing_target_halt baseDeps (initCtx false) "/src" [] (by decide) rfl

/-! # Claim C9 -/

/-- **C9**: a target directive whose path argument is empty — after
trimming, the line is exactly `=>`, which covers `=>` alone or followed
only by whitespace — sets `targetPath` to the empty string (echoing
`target ` with an empty path), so a subsequent source-path line triggers
the fatal missing-target failure even though a target directive was
present; when no aggregated messages exist, the surfaced error is exactly
the fatal one. -/
theorem C9_empty_target_directive (deps : Dependencies R) (ctx : backupContext R)
    (tline sline : String) (rest : List String)
    (ht : goTrim tline = "=>")
    (hs : lineConsumed (goTrim sline) = false) :
    (processNonPathLine deps ctx (goTrim tline)).1.targetPath = "" ∧
    backupLines deps ctx (tline :: sline :: rest) =
      ({ ctx with
          targetPath := ""
          out := (ctx.out ++ ["target "]) ++ ["FATAL: " ++ targetErrText] },
        LoopOutcome.fatalTarget) ∧
    (ctx.msgs.length = 0 →
      (finishRun (backupLines deps ctx (tline :: sline :: rest)).1
        (backupLines deps ctx (tline :: sline :: rest)).2).2 =
        RunResult.fatal targetErrText) := by
  have hp : processNonPathLine deps ctx (goTrim tline) =
      ({ ctx with targetPath := "", out := ctx.out ++ ["target "] }, true, false) := by
    rw [ht]; rfl
  have hloop : backupLines deps ctx (tline :: sline :: rest) =
      ({ ctx with
          targetPath := ""
          out := (ctx.out ++ ["target "]) ++ ["FATAL: " ++ targetErrText] },
        LoopOutcome.fatalTarget) := by
    simp only [backupLines, hp]
    simp only [backupLines,
      processNonPathLine_not_consumed deps _ (goTrim sline) hs]
    simp
  refine ⟨by rw [hp], hloop, fun hm => ?_⟩
  rw [hloop]
  simp [finishRun, hm]

/-- Witness for `C9_empty_target_directive` at a concrete input. -/
theorem C9_empty_target_directive_witness :
    (processNonPathLine baseDeps (initCtx false) (goTrim "=>")).1.targetPath = "" ∧
    backupLines baseDeps (initCtx false) ["=>", "/src"] =
      ({ (initCtx false : backupContext String) with
          targetPath := ""
          out := ((initCtx false : backupContext String).out ++ ["target "]) ++
            ["FATAL: " ++ targetErrText] }, LoopOutcome.fatalTarget) ∧
    ((initCtx false : backupContext String).msgs.length = 0 →
      (finishRun (backupLines baseDeps (initCtx false) ["=>", "/src"]).1
        (backupLines baseDeps (initCtx false) ["=>", "/src"]).2).2 =
        RunResult.fatal targetErrText) :=
  C9_empty_target_directive baseDeps (initCtx false) "=>" "/src" [] rfl (by decide)

/-! # Claim C5 -/

/-- The pattern loop leaves every non-`exclude` field as recorded and, when
it does not abort, appends exactly the successfully compiled non-empty
pieces to the pattern set. -/
theorem parseParts_exclude_eq (deps : Dependencies R) :
    ∀ (parts : List String) (ctx : backupContext R),
    (parseParts deps ctx parts).2 = false →
    (parseParts deps ctx parts).1.exclude =
      ctx.exclude ++ parts.filterMap (fun p => if p = "" then none else deps.compile p)
  | [], ctx, _ => by simp [parseParts]
  | p :: ps, ctx, hab => by
    unfold parseParts at hab ⊢
    by_cases hp : p = ""
    · simp only [if_pos hp]  at hab ⊢
      rw [parseParts_exclude_eq deps ps ctx hab]
      simp [hp]
    · simp only [if_neg hp] at hab ⊢
      cases hc : deps.compile p with
      | none =>
        simp only [hc] at hab ⊢
        by_cases h2 : (msg deps ctx ("Error in exlude regexp: " ++ p)).2
        · simp [h2] at hab
        · simp only [Bool.not_eq_true] at h2
          simp [h2] at hab ⊢
          rw [parseParts_exclude_eq deps ps _ hab]
          simp [msg, hp, hc]
      | some rex =>
        simp only [hc] at hab ⊢
        rw [parseParts_exclude_eq deps ps _ hab]
        simp [hp, hc]

/-- **C5**: a plain exclude directive replaces the entire current pattern
set with the patterns parsed from its argument, an extend directive
appends them to the current set, and a plain directive whose argument
trims to the empty string clears the set; on the two-line examples, after
`! \.log$` then `!+ \.tmp$` both patterns are active, while after
`! \.log$` then `! \.tmp$` only the second pattern is active.  (The
no-abort hypotheses rule out the too-many-errors panic, which cuts the
pattern loop short.) -/
theorem C5_exclude_replace_extend (deps : Dependencies R) (ctx : backupContext R)
    (arg : String) (r1 r2 : R)
    (hc1 : deps.compile "\\.log$" = some r1)
    (hc2 : deps.compile "\\.tmp$" = some r2) :
    ((parseExclude deps ctx arg false).2 = false →
      (parseExclude deps ctx arg false).1.exclude = compiledOf deps arg) ∧
    ((parseExclude deps ctx arg true).2 = false →
      (parseExclude deps ctx arg true).1.exclude = ctx.exclude ++ compiledOf deps arg) ∧
    (goTrim arg = "" → (parseExclude deps ctx arg false).1.exclude = []) ∧
    ((processNonPathLine deps
        (processNonPathLine deps ctx "! \\.log$").1 "!+ \\.tmp$").1.exclude = [r1, r2]) ∧
    ((processNonPathLine deps
        (processNonPathLine deps ctx "! \\.log$").1 "! \\.tmp$").1.exclude = [r2]) := by
  refine ⟨?_, ?_, ?_, ?_, ?_⟩
  · intro hab
    unfold parseExclude at hab ⊢
    rw [parseParts_exclude_eq deps _ _ hab]
    simp [compiledOf]
  · intro hab
    unfold parseExclude at hab ⊢
    rw [parseParts_exclude_eq deps _ _ hab]
    simp [compiledOf]
  · intro htrim
    unfold parseExclude
    rw [htrim]
    rfl
  · have h1 : (processNonPathLine deps ctx "! \\.log$").1.exclude = [r1] := by
      simp +decide [processNonPathLine, targetCapture, maxAgeCapture, maxSizeCapture,
        extendExcludeCapture, excludeCapture, parseExclude, parseParts, msg, hc1]
    have h2 : (processNonPathLine deps
        (processNonPathLine deps ctx "! \\.log$").1 "!+ \\.tmp$").1.exclude =
        (processNonPathLine deps ctx "! \\.log$").1.exclude ++ [r2] := by
      simp +decide [processNonPathLine, targetCapture, maxAgeCapture, maxSizeCapture,
        extendExcludeCapture, excludeCapture, parseExclude, parseParts, msg, hc2]
    rw [h2, h1]
    rfl
  · simp +decide [processNonPathLine, targetCapture, maxAgeCapture, maxSizeCapture,
      extendExcludeCapture, excludeCapture, parseExclude, parseParts, msg, hc2]

/-- Witness for `C5_exclude_replace_extend` at concrete inputs. -/
theorem C5_exclude_replace_extend_witness :
    (parseExclude baseDeps (initCtx false) "a,,b" false).1.exclude =
      compiledOf baseDeps "a,,b" ∧
    (parseExclude baseDeps (initCtx false) "a,,b" true).1.exclude =
      (initCtx false : backupContext String).exclude ++ compiledOf baseDeps "a,,b" ∧
    (processNonPathLine baseDeps
      (processNonPathLine baseDeps (initCtx false) "! \\.log$").1 "!+ \\.tmp$").1.exclude =
      ["\\.log$", "\\.tmp$"] ∧
    (processNonPathLine baseDeps
      (processNonPathLine baseDeps (initCtx false) "! \\.log$").1 "! \\.tmp$").1.exclude =
      ["\\.tmp$"] := by
  have h := C5_exclude_replace_extend baseDeps (initCtx false) "a,,b"
    "\\.log$" "\\.tmp$" rfl rfl
  exact ⟨h.1 (by decide), h.2.1 (by decide), h.2.2.2.1, h.2.2.2.2⟩

/-! # Lemmas about `handleFile` -/

/-- When the destination exists and is not older than the source, the Sync
Policy skips: no abort, no filesystem call of any kind, no copy counted, no
message recorded — whatever the earlier filters would have decided. -/
theorem handleFile_fresh_skip (deps : Dependencies R) (ctx : backupContext R)
    (p : String) (i : FileInfo) (d : FileInfo)
    (hstat : deps.stat (destPathOf deps ctx.targetPath p) = some d)
    (hfresh : ¬(d.modTime < i.modTime)) :
    (handleFile deps ctx p i).2 = false ∧
    (handleFile deps ctx p i).1.events = ctx.events ∧
    (handleFile deps ctx p i).1.count.copied = ctx.count.copied ∧
    (handleFile deps ctx p i).1.msgs = ctx.msgs ∧
    (handleFile deps ctx p i).1.targetPath = ctx.targetPath := by
  unfold handleFile
  unfold destPathOf at hstat
  simp only [hstat]
  repeat' split <;> simp_all

/-- `handleFileTail` never changes the run configuration. -/
theorem handleFileTail_exclude (deps : Dependencies R) (ctx : backupContext R)
    (src dest : String) :
    (handleFileTail deps ctx src dest).1.exclude = ctx.exclude := by
  unfold handleFileTail msg
  repeat' split <;> simp_all

/-- `handleFileTail` keeps the target path. -/
theorem handleFileTail_targetPath (deps : Dependencies R) (ctx : backupContext R)
    (src dest : String) :
    (handleFileTail deps ctx src dest).1.targetPath = ctx.targetPath := by
  unfold handleFileTail msg
  repeat' split <;> simp_all

/-- `handleFileTail` keeps the dry-run flag. -/
theorem handleFileTail_dryRun (deps : Dependencies R) (ctx : backupContext R)
    (src dest : String) :
    (handleFileTail deps ctx src dest).1.dryRun = ctx.dryRun := by
  unfold handleFileTail msg
  repeat' split <;> simp_all

/-- `handleFileTail` keeps the start date. -/
theorem handleFileTail_startDate (deps : Dependencies R) (ctx : backupContext R)
    (src dest : String) :
    (handleFileTail deps ctx src dest).1.startDate = ctx.startDate := by
  unfold handleFileTail msg
  repeat' split <;> simp_all

/-- `handleFileTail` keeps the size bound. -/
theorem handleFileTail_maxSize (deps : Dependencies R) (ctx : backupContext R)
    (src dest : String) :
    (handleFileTail deps ctx src dest).1.maxSize = ctx.maxSize := by
  unfold handleFileTail msg
  repeat' split <;> simp_all

set_option maxHeartbeats 1600000 in
/-- `handleFile` never changes the run configuration: dry-run flag, target
path, filters. -/
theorem handleFile_frame (deps : Dependencies R) (ctx : backupContext R)
    (p : String) (i : FileInfo) :
    (handleFile deps ctx p i).1.exclude = ctx.exclude ∧
    (handleFile deps ctx p i).1.targetPath = ctx.targetPath ∧
    (handleFile deps ctx p i).1.dryRun = ctx.dryRun ∧
    (handleFile deps ctx p i).1.startDate = ctx.startDate ∧
    (handleFile deps ctx p i).1.maxSize = ctx.maxSize := by
  unfold handleFile msg
  repeat' split <;>
    first
      | exact ⟨rfl, rfl, rfl, rfl, rfl⟩
      | simp_all [handleFileTail_exclude, handleFileTail_targetPath,
          handleFileTail_dryRun, handleFileTail_startDate, handleFileTail_maxSize]
      | skip

/-! # Walk preservation machinery

A predicate `P` that survives the directory-counter bump and every
`handleFile` step on the files of a tree (falling to `Q` when a step
aborts) survives the whole walk. -/

mutual

theorem walkNode_preserve (deps : Dependencies R) (P Q : backupContext R → Prop)
    (hdir : ∀ ctx : backupContext R, P ctx →
      P { ctx with count := { ctx.count with dir := ctx.count.dir + 1 } }) :
    ∀ (t : FsTree) (path : String) (ctx : backupContext R), P ctx →
    (∀ pi ∈ nodeFiles deps path t, ∀ ctx2 : backupContext R, P ctx2 →
      ((handleFile deps ctx2 pi.1 pi.2).2 = false →
        P (handleFile deps ctx2 pi.1 pi.2).1) ∧
      ((handleFile deps ctx2 pi.1 pi.2).2 = true →
        Q (handleFile deps ctx2 pi.1 pi.2).1)) →
    ((walkNode deps ctx path t).2 = false → P (walkNode deps ctx path t).1) ∧
    ((walkNode deps ctx path t).2 = true → Q (walkNode deps ctx path t).1)
  | .file n none, path, ctx, hP, _ => by
    simp [walkNode, hP]
  | .file n (some i), path, ctx, hP, hstep => by
    have h := hstep (path, i) (by simp [nodeFiles]) ctx hP
    simpa [walkNode] using h
  | .dir n entries, path, ctx, hP, hstep => by
    have heq : walkNode deps ctx path (.dir n entries) =
        (if (ctx.exclude.any fun rex => deps.rexMatch rex (path.push deps.sep)) = true
         then (ctx, false)
         else walkForest deps
           { ctx with count := { ctx.count with dir := ctx.count.dir + 1 } }
           path entries) := rfl
    rw [heq]
    by_cases hm : (ctx.exclude.any fun rex => deps.rexMatch rex (path.push deps.sep)) = true
    · rw [if_pos hm]
      exact ⟨fun _ => hP, fun h => by simp at h⟩
    · rw [if_neg hm]
      exact walkForest_preserve deps P Q hdir entries path _ (hdir ctx hP)
        (fun pi hm2 => hstep pi (by simpa [nodeFiles] using hm2))

theorem walkForest_preserve (deps : Dependencies R) (P Q : backupContext R → Prop)
    (hdir : ∀ ctx : backupContext R, P ctx →
      P { ctx with count := { ctx.count with dir := ctx.count.dir + 1 } }) :
    ∀ (ts : FsForest) (parent : String) (ctx : backupContext R), P ctx →
    (∀ pi ∈ forestFiles deps parent ts, ∀ ctx2 : backupContext R, P ctx2 →
      ((handleFile deps ctx2 pi.1 pi.2).2 = false →
        P (handleFile deps ctx2 pi.1 pi.2).1) ∧
      ((handleFile deps ctx2 pi.1 pi.2).2 = true →
        Q (handleFile deps ctx2 pi.1 pi.2).1)) →
    ((walkForest deps ctx parent ts).2 = false → P (walkForest deps ctx parent ts).1) ∧
    ((walkForest deps ctx parent ts).2 = true → Q (walkForest deps ctx parent ts).1)
  | .nil, parent, ctx, hP, _ => by
    simp [walkForest, hP]
  | .cons t ts, parent, ctx, hP, hstep => by
    have hhead := walkNode_preserve deps P Q hdir t (childPath deps parent t) ctx hP
      (fun pi hm => hstep pi (by simp [forestFiles, hm]))
    have heq : walkForest deps ctx parent (.cons t ts) =
        (if (walkNode deps ctx (childPath deps parent t) t).2 = true
         then walkNode deps ctx (childPath deps parent t) t
         else walkForest deps (walkNode deps ctx (childPath deps parent t) t).1 parent ts) :=
      rfl
    rw [heq]
    by_cases hab : (walkNode deps ctx (childPath deps parent t) t).2 = true
    · rw [if_pos hab]
      refine ⟨fun h2 => ?_, fun _ => hhead.2 hab⟩
      rw [h2] at hab; cases hab
    · rw [if_neg hab]
      have hf : (walkNode deps ctx (childPath deps parent t) t).2 = false := by
        simpa using hab
      exact walkForest_preserve deps P Q hdir ts parent _ (hhead.1 hf)
        (fun pi hm => hstep pi (by simp [forestFiles, hm]))

end

/-! # Claim C6 -/

/-- **C6**: a file whose destination already exists with modification time
at least the source's is skipped without invoking the copy capability (no
event of any kind, the copied counter and the messages untouched); and a
directory source all of whose reachable files have such up-to-date
destinations — the state of a second run over unchanged sources — is
traversed with zero copies: no filesystem call at all, no message, no
abort, and a summary reporting zero copied files. -/
theorem C6_idempotent_skip (deps : Dependencies R) (ctx : backupContext R)
    (p : String) (i d : FileInfo) (t : FsTree) (path : String)
    (hstat : deps.stat (destPathOf deps ctx.targetPath p) = some d)
    (hfresh : ¬(d.modTime < i.modTime))
    (htree : deps.fsTree path = some t)
    (hmirror : ∀ pi ∈ nodeFiles deps path t, ∃ e,
      deps.stat (destPathOf deps ctx.targetPath pi.1) = some e ∧
      ¬(e.modTime < pi.2.modTime)) :
    ((handleFile deps ctx p i).2 = false ∧
     (handleFile deps ctx p i).1.events = ctx.events ∧
     (handleFile deps ctx p i).1.count.copied = ctx.count.copied) ∧
    ((handleDir deps ctx path).2 = false ∧
     (handleDir deps ctx path).1.events = ctx.events ∧
     (handleDir deps ctx path).1.msgs = ctx.msgs ∧
     (handleDir deps ctx path).1.count.copied = 0) := by
  have hfile := handleFile_fresh_skip deps ctx p i d hstat hfresh
  refine ⟨⟨hfile.1, hfile.2.1, hfile.2.2.1⟩, ?_⟩
  have hpres := walkNode_preserve deps
    (fun c => c.targetPath = ctx.targetPath ∧ c.events = ctx.events ∧
      c.msgs = ctx.msgs ∧ c.count.copied = 0)
    (fun _ => False)
    (fun c hc => by exact ⟨hc.1, hc.2.1, hc.2.2.1, hc.2.2.2⟩)
    t path { ctx with count := ⟨0, 0, 0⟩ } (by exact ⟨rfl, rfl, rfl, rfl⟩)
    (fun pi hm ctx2 hP => by
      obtain ⟨e, he, hef⟩ := hmirror pi hm
      rw [← hP.1] at he
      have hs := handleFile_fresh_skip deps ctx2 pi.1 pi.2 e he hef
      refine ⟨fun _ => ⟨?_, ?_, ?_, ?_⟩, fun hab => ?_⟩
      · rw [hs.2.2.2.2, hP.1]
      · rw [hs.2.1, hP.2.1]
      · rw [hs.2.2.2.1, hP.2.2.1]
      · rw [hs.2.2.1, hP.2.2.2]
      · rw [hs.1] at hab; cases hab)
  have hwalkeq : handleDir deps ctx path =
      (if (walkNode deps { ctx with count := ⟨0, 0, 0⟩ } path t).2 = true
       then walkNode deps { ctx with count := ⟨0, 0, 0⟩ } path t
       else
        let c1 := (walkNode deps { ctx with count := ⟨0, 0, 0⟩ } path t).1
        let c2 :=
          if deps.printDotFileCount ≤ c1.count.files
          then { c1 with out := c1.out ++ [""] } else c1
        ({ c2 with out := c2.out ++ [summaryLine c2.count] }, false)) := by
    unfold handleDir
    rw [htree]
  have hnab : (walkNode deps { ctx with count := ⟨0, 0, 0⟩ } path t).2 = false := by
    cases hab : (walkNode deps { ctx with count := ⟨0, 0, 0⟩ } path t).2
    · rfl
    · exact absurd (hpres.2 hab) id
  have hP := hpres.1 hnab
  rw [hwalkeq, if_neg (by rw [hnab]; exact Bool.false_ne_true)]
  refine ⟨rfl, ?_, ?_, ?_⟩ <;> dsimp only <;> split <;>
    simp [hP.2.1, hP.2.2.1, hP.2.2.2]

/-- Witness for `C6_idempotent_skip` at a concrete input: one source tree
`/s` holding `/s/f`, destination `/t/s/f` equally old. -/
theorem C6_idempotent_skip_witness :
    ((handleFile syncDeps ctxT "/s/f" syncSrcInfo).2 = false ∧
     (handleFile syncDeps ctxT "/s/f" syncSrcInfo).1.events = ctxT.events ∧
     (handleFile syncDeps ctxT "/s/f" syncSrcInfo).1.count.copied =
       ctxT.count.copied) ∧
    ((handleDir syncDeps ctxT "/s").2 = false ∧
     (handleDir syncDeps ctxT "/s").1.events = ctxT.events ∧
     (handleDir syncDeps ctxT "/s").1.msgs = ctxT.msgs ∧
     (handleDir syncDeps ctxT "/s").1.count.copied = 0) := by
  refine C6_idempotent_skip syncDeps ctxT "/s/f" syncSrcInfo syncSrcInfo
    (.dir "s" (.ofList [.file "f" (some syncSrcInfo)])) "/s"
    (by decide) (by decide) rfl ?_
  intro pi hm
  have hlist : nodeFiles syncDeps "/s"
      (.dir "s" (.ofList [.file "f" (some syncSrcInfo)])) =
      [("/s/f", syncSrcInfo)] := rfl
  rw [hlist] at hm
  have hpi : pi = ("/s/f", syncSrcInfo) := by simpa using hm
  rw [hpi]
  exact ⟨syncSrcInfo, by decide, by decide⟩

/-! # Claim C7 -/

/-- The walk never alters the active pattern set: the same set is consulted
at every directory of one traversal. -/
theorem walkForest_exclude_const (deps : Dependencies R) (ts : FsForest)
    (parent : String) (ctx : backupContext R) :
    (walkForest deps ctx parent ts).1.exclude = ctx.exclude := by
  have h := walkForest_preserve deps
    (fun c => c.exclude = ctx.exclude) (fun c => c.exclude = ctx.exclude)
    (fun c hc => hc) ts parent ctx rfl
    (fun pi _ ctx2 hP => by
      have hf := (handleFile_frame deps ctx2 pi.1 pi.2).1
      exact ⟨fun _ => hf.trans hP, fun _ => hf.trans hP⟩)
  cases hab : (walkForest deps ctx parent ts).2
  · exact h.1 hab
  · exact h.2 hab

/-- **C7**: every directory entry (the root included — `walkNode` is called
on the root path by `handleDir`) is tested with a trailing separator
appended against every active exclude pattern.  On a match the node
contributes nothing: the state is returned unchanged, so the directory
counter is not incremented and no descendant is visited — in a child list,
walking the list with the matched directory is walking the list without
it.  Without a match the directory counter is incremented and the children
are walked; and the pattern set consulted never changes during a
traversal. -/
theorem C7_dir_exclusion_prunes (deps : Dependencies R) (ctx : backupContext R)
    (n : String) (entries : FsForest) (path parent : String) (ts : FsForest) :
    ((ctx.exclude.any fun rex => deps.rexMatch rex (path.push deps.sep)) = true →
      walkNode deps ctx path (.dir n entries) = (ctx, false)) ∧
    ((ctx.exclude.any fun rex => deps.rexMatch rex (path.push deps.sep)) = false →
      walkNode deps ctx path (.dir n entries) =
        walkForest deps
          { ctx with count := { ctx.count with dir := ctx.count.dir + 1 } }
          path entries) ∧
    ((ctx.exclude.any fun rex => deps.rexMatch rex
        ((childPath deps parent (.dir n entries)).push deps.sep)) = true →
      walkForest deps ctx parent (.cons (.dir n entries) ts) =
        walkForest deps ctx parent ts) ∧
    (walkForest deps ctx parent ts).1.exclude = ctx.exclude := by
  have heq : walkNode deps ctx path (.dir n entries) =
      (if (ctx.exclude.any fun rex => deps.rexMatch rex (path.push deps.sep)) = true
       then (ctx, false)
       else walkForest deps
         { ctx with count := { ctx.count with dir := ctx.count.dir + 1 } }
         path entries) := rfl
  refine ⟨fun hm => ?_, fun hm => ?_, fun hm => ?_, walkForest_exclude_const deps ts parent ctx⟩
  · rw [heq, if_pos hm]
  · rw [heq, if_neg (by rw [hm]; exact Bool.false_ne_true)]
  · have hcons : walkForest deps ctx parent (.cons (.dir n entries) ts) =
        (if (walkNode deps ctx (childPath deps parent (.dir n entries)) (.dir n entries)).2 = true
         then walkNode deps ctx (childPath deps parent (.dir n entries)) (.dir n entries)
         else walkForest deps
           (walkNode deps ctx (childPath deps parent (.dir n entries)) (.dir n entries)).1
           parent ts) := rfl
    have hprune : walkNode deps ctx (childPath deps parent (.dir n entries))
        (.dir n entries) = (ctx, false) := by
      have heq2 : walkNode deps ctx (childPath deps parent (.dir n entries)) (.dir n entries) =
          (if (ctx.exclude.any fun rex => deps.rexMatch rex
              ((childPath deps parent (.dir n entries)).push deps.sep)) = true
           then (ctx, false)
           else walkForest deps
             { ctx with count := { ctx.count with dir := ctx.count.dir + 1 } }
             (childPath deps parent (.dir n entries)) entries) := rfl
      rw [heq2, if_pos hm]
    rw [hcons, hprune]
    simp

/-- Witness for `C7_dir_exclusion_prunes` at a concrete input: pattern
`/d6/` prunes the directory `/d5/d6`, and the tree below it is not
visited. -/
theorem C7_dir_exclusion_prunes_witness :
    walkNode baseDeps { ctxT with exclude := ["/d6/"] } "/d5/d6"
      (.dir "d6" (.ofList [.file "f" (some syncSrcInfo)])) =
      ({ ctxT with exclude := ["/d6/"] }, false) ∧
    walkForest baseDeps { ctxT with exclude := ["/d6/"] } "/d5"
      (.cons (.dir "d6" (.ofList [.file "f" (some syncSrcInfo)])) .nil) =
      walkForest baseDeps { ctxT with exclude := ["/d6/"] } "/d5" .nil := by
  have h := C7_dir_exclusion_prunes baseDeps { ctxT with exclude := ["/d6/"] }
    "d6" (.ofList [.file "f" (some syncSrcInfo)]) "/d5/d6" "/d5" .nil
  exact ⟨h.1 (by decide), h.2.2.1 (by decide)⟩

/-! # Claim C2: the error cap invariant -/

/-- `msg` under the cap: one message is appended; without a panic the cap
is still not reached, and a panic happens exactly when the new count
equals the cap. -/
theorem msg_inv (deps : Dependencies R) (ctx : backupContext R) (m : String)
    (h : ctx.msgs.length < deps.maxErrors) :
    ((msg deps ctx m).2 = false →
      (msg deps ctx m).1.msgs.length < deps.maxErrors) ∧
    ((msg deps ctx m).2 = true →
      (msg deps ctx m).1.msgs.length = deps.maxErrors) := by
  unfold msg
  constructor <;> intro hab <;> simp_all <;> omega

/-- The pattern loop keeps the cap invariant. -/
theorem parseParts_inv (deps : Dependencies R) :
    ∀ (parts : List String) (ctx : backupContext R),
    ctx.msgs.length < deps.maxErrors →
    ((parseParts deps ctx parts).2 = false →
      (parseParts deps ctx parts).1.msgs.length < deps.maxErrors) ∧
    ((parseParts deps ctx parts).2 = true →
      (parseParts deps ctx parts).1.msgs.length = deps.maxErrors)
  | [], ctx, h => by simpa [parseParts] using h
  | p :: ps, ctx, h => by
    unfold parseParts
    by_cases hp : p = ""
    · simp only [if_pos hp]
      exact parseParts_inv deps ps ctx h
    · simp only [if_neg hp]
      cases hc : deps.compile p with
      | none =>
        have hm := msg_inv deps ctx ("Error in exlude regexp: " ++ p) h
        by_cases h2 : (msg deps ctx ("Error in exlude regexp: " ++ p)).2
        · simp only [h2, if_pos rfl]
          exact ⟨(fun hf => by cases hf), (fun _ => hm.2 h2)⟩
        · simp only [Bool.not_eq_true] at h2
          simp only [h2]
          simp only [Bool.false_eq_true, if_false]
          exact parseParts_inv deps ps _ (hm.1 h2)
      | some rex =>
        simp only [hc]
        exact parseParts_inv deps ps _ (by simpa using h)

/-- `processNonPathLine` keeps the cap invariant. -/
theorem processNonPathLine_inv (deps : Dependencies R) (ctx : backupContext R)
    (line : String) (h : ctx.msgs.length < deps.maxErrors) :
    ((processNonPathLine deps ctx line).2.2 = false →
      (processNonPathLine deps ctx line).1.msgs.length < deps.maxErrors) ∧
    ((processNonPathLine deps ctx line).2.2 = true →
      (processNonPathLine deps ctx line).1.msgs.length = deps.maxErrors) := by
  have hpe : ∀ (cap : String) (b : Bool),
      ((parseExclude deps ctx cap b).2 = false →
        (parseExclude deps ctx cap b).1.msgs.length < deps.maxErrors) ∧
      ((parseExclude deps ctx cap b).2 = true →
        (parseExclude deps ctx cap b).1.msgs.length = deps.maxErrors) := by
    intro cap b
    cases b
    · exact parseParts_inv deps _ _ (by simpa using h)
    · exact parseParts_inv deps _ _ h
  unfold processNonPathLine
  dsimp only
  repeat' split
  all_goals
    first
      | exact ⟨(fun _ => by simpa using h), (fun hab => by simp at hab)⟩
      | (rename_i hcond
         exact ⟨(fun hf => by simp at hf), (fun _ => (hpe _ _).2 hcond)⟩)
      | (rename_i hcond
         exact ⟨(fun _ => by simpa using (hpe _ _).1 (by simpa using hcond)),
           (fun hab => by simp at hab)⟩)

/-- `handleFileTail` keeps the cap invariant. -/
theorem handleFileTail_inv (deps : Dependencies R) (ctx : backupContext R)
    (src dest : String) (h : ctx.msgs.length < deps.maxErrors) :
    ((handleFileTail deps ctx src dest).2 = false →
      (handleFileTail deps ctx src dest).1.msgs.length < deps.maxErrors) ∧
    ((handleFileTail deps ctx src dest).2 = true →
      (handleFileTail deps ctx src dest).1.msgs.length = deps.maxErrors) := by
  unfold handleFileTail
  dsimp only
  repeat' split
  all_goals
    first
      | exact ⟨(fun _ => by simpa using h), (fun hab => by simp at hab)⟩
      | exact msg_inv deps _ _ (by simpa using h)

/-- `handleFile` keeps the cap invariant. -/
theorem handleFile_inv (deps : Dependencies R) (ctx : backupContext R)
    (p : String) (i : FileInfo) (h : ctx.msgs.length < deps.maxErrors) :
    ((handleFile deps ctx p i).2 = false →
      (handleFile deps ctx p i).1.msgs.length < deps.maxErrors) ∧
    ((handleFile deps ctx p i).2 = true →
      (handleFile deps ctx p i).1.msgs.length = deps.maxErrors) := by
  unfold handleFile
  dsimp only
  repeat' split
  all_goals
    first
      | exact ⟨(fun _ => by simpa using h), (fun hab => by simp at hab)⟩
      | exact handleFileTail_inv deps _ _ _ (by simpa using h)
      | exact msg_inv deps _ _ (by simpa using h)

/-- The walk keeps the cap invariant. -/
theorem walkNode_inv (deps : Dependencies R) (t : FsTree) (path : String)
    (ctx : backupContext R) (h : ctx.msgs.length < deps.maxErrors) :
    ((walkNode deps ctx path t).2 = false →
      (walkNode deps ctx path t).1.msgs.length < deps.maxErrors) ∧
    ((walkNode deps ctx path t).2 = true →
      (walkNode deps ctx path t).1.msgs.length = deps.maxErrors) :=
  walkNode_preserve deps
    (fun c => c.msgs.length < deps.maxErrors)
    (fun c => c.msgs.length = deps.maxErrors)
    (fun c hc => by simpa using hc)
    t path ctx h
    (fun pi _ ctx2 hP => handleFile_inv deps ctx2 pi.1 pi.2 hP)

/-- `handleDir` keeps the cap invariant. -/
theorem handleDir_inv (deps : Dependencies R) (ctx : backupContext R)
    (path : String) (h : ctx.msgs.length < deps.maxErrors) :
    ((handleDir deps ctx path).2 = false →
      (handleDir deps ctx path).1.msgs.length < deps.maxErrors) ∧
    ((handleDir deps ctx path).2 = true →
      (handleDir deps ctx path).1.msgs.length = deps.maxErrors) := by
  cases htr : deps.fsTree path with
  | none =>
    have heq : handleDir deps ctx path =
        (let c1 : backupContext R := { ctx with count := ⟨0, 0, 0⟩ }
         let c2 :=
           if deps.printDotFileCount ≤ c1.count.files
           then { c1 with out := c1.out ++ [""] } else c1
         ({ c2 with out := c2.out ++ [summaryLine c2.count] }, false)) := by
      unfold handleDir
      rw [htr]
      rfl
    rw [heq]
    dsimp only
    refine ⟨(fun _ => ?_), (fun hab => by simp at hab)⟩
    split <;> simpa using h
  | some t =>
    have hw := walkNode_inv deps t path { ctx with count := ⟨0, 0, 0⟩ }
      (by simpa using h)
    have heq : handleDir deps ctx path =
        (if (walkNode deps { ctx with count := ⟨0, 0, 0⟩ } path t).2 = true
         then walkNode deps { ctx with count := ⟨0, 0, 0⟩ } path t
         else
          let c1 := (walkNode deps { ctx with count := ⟨0, 0, 0⟩ } path t).1
          let c2 :=
            if deps.printDotFileCount ≤ c1.count.files
            then { c1 with out := c1.out ++ [""] } else c1
          ({ c2 with out := c2.out ++ [summaryLine c2.count] }, false)) := by
      unfold handleDir
      rw [htr]
    rw [heq]
    by_cases hab : (walkNode deps { ctx with count := ⟨0, 0, 0⟩ } path t).2 = true
    · rw [if_pos hab]
      exact ⟨(fun hf => by rw [hf] at hab; cases hab), (fun _ => hw.2 hab)⟩
    · rw [if_neg hab]
      dsimp only
      refine ⟨(fun _ => ?_), (fun hf => by simp at hf)⟩
      have h1 := hw.1 (by simpa using hab)
      split <;> simpa using h1

/-- The loop keeps the cap invariant: a panic leaves exactly `maxErrors`
messages, anything else leaves fewer. -/
theorem backupLines_inv (deps : Dependencies R) :
    ∀ (lines : List String) (ctx : backupContext R),
    ctx.msgs.length < deps.maxErrors →
    ((backupLines deps ctx lines).2 = LoopOutcome.panicked →
      (backupLines deps ctx lines).1.msgs.length = deps.maxErrors) ∧
    ((backupLines deps ctx lines).2 ≠ LoopOutcome.panicked →
      (backupLines deps ctx lines).1.msgs.length < deps.maxErrors)
  | [], ctx, h => ⟨(fun hf => nomatch hf), (fun _ => h)⟩
  | line :: rest, ctx, h => by
    have hp := processNonPathLine_inv deps ctx (goTrim line) h
    unfold backupLines
    dsimp only
    by_cases hab : (processNonPathLine deps ctx (goTrim line)).2.2 = true
    · rw [if_pos hab]
      exact ⟨(fun _ => hp.2 hab), (fun hn => absurd rfl hn)⟩
    · rw [if_neg hab]
      have h1 := hp.1 (by simpa using hab)
      by_cases hcons : (processNonPathLine deps ctx (goTrim line)).2.1 = true
      · rw [if_pos hcons]
        exact backupLines_inv deps rest _ h1
      · rw [if_neg hcons]
        by_cases htp : (processNonPathLine deps ctx (goTrim line)).1.targetPath = ""
        · rw [if_pos htp]
          exact ⟨(fun hf => by simp at hf), (fun _ => by simpa using h1)⟩
        · rw [if_neg htp]
          cases hst : deps.stat (goTrim line) with
          | none =>
            dsimp only
            have hm := msg_inv deps (processNonPathLine deps ctx (goTrim line)).1
              ("Cannot stat, skipping: " ++ goTrim line) h1
            by_cases hab2 : (msg deps (processNonPathLine deps ctx (goTrim line)).1
                ("Cannot stat, skipping: " ++ goTrim line)).2 = true
            · rw [if_pos hab2]
              exact ⟨(fun _ => hm.2 hab2), (fun hn => absurd rfl hn)⟩
            · rw [if_neg hab2]
              exact backupLines_inv deps rest _ (hm.1 (by simpa using hab2))
          | some info =>
            dsimp only
            by_cases hd : info.isDir = true
            · rw [if_pos hd]
              have hh := handleDir_inv deps
                { (processNonPathLine deps ctx (goTrim line)).1 with
                  out := (processNonPathLine deps ctx (goTrim line)).1.out ++
                    [goTrim line] } (goTrim line) (by simpa using h1)
              by_cases hab2 : (handleDir deps
                  { (processNonPathLine deps ctx (goTrim line)).1 with
                    out := (processNonPathLine deps ctx (goTrim line)).1.out ++
                      [goTrim line] } (goTrim line)).2 = true
              · rw [if_pos hab2]
                exact ⟨(fun _ => hh.2 hab2), (fun hn => absurd rfl hn)⟩
              · rw [if_neg hab2]
                exact backupLines_inv deps rest _ (hh.1 (by simpa using hab2))
            · rw [if_neg hd]
              have hh := handleFile_inv deps
                { (processNonPathLine deps ctx (goTrim line)).1 with
                  out := (processNonPathLine deps ctx (goTrim line)).1.out ++
                    [goTrim line] } (goTrim line) info (by simpa using h1)
              by_cases hab2 : (handleFile deps
                  { (processNonPathLine deps ctx (goTrim line)).1 with
                    out := (processNonPathLine deps ctx (goTrim line)).1.out ++
                      [goTrim line] } (goTrim line) info).2 = true
              · rw [if_pos hab2]
                exact ⟨(fun _ => hh.2 hab2), (fun hn => absurd rfl hn)⟩
              · rw [if_neg hab2]
                exact backupLines_inv deps rest _ (hh.1 (by simpa using hab2))

/-- One loop step in isolation: processing `line :: rest` is processing
`[line]` and, only when that ended normally, continuing with `rest`. -/
theorem backupLines_cons (deps : Dependencies R) (ctx : backupContext R)
    (line : String) (rest : List String) :
    backupLines deps ctx (line :: rest) =
      (if (backupLines deps ctx [line]).2 = LoopOutcome.normal
       then backupLines deps (backupLines deps ctx [line]).1 rest
       else backupLines deps ctx [line]) := by
  by_cases hab : (processNonPathLine deps ctx (goTrim line)).2.2 = true
  · have hS : backupLines deps ctx [line] =
        ((processNonPathLine deps ctx (goTrim line)).1, LoopOutcome.panicked) := by
      rw [backupLines]
      dsimp only
      rw [if_pos hab]
    have hL : backupLines deps ctx (line :: rest) =
        ((processNonPathLine deps ctx (goTrim line)).1, LoopOutcome.panicked) := by
      rw [backupLines]
      dsimp only
      rw [if_pos hab]
    rw [hL, hS]
    simp
  · by_cases hcons : (processNonPathLine deps ctx (goTrim line)).2.1 = true
    · have hS : backupLines deps ctx [line] =
          ((processNonPathLine deps ctx (goTrim line)).1, LoopOutcome.normal) := by
        rw [backupLines]
        dsimp only
        rw [if_neg hab, if_pos hcons]
        rfl
      have hL : backupLines deps ctx (line :: rest) =
          backupLines deps (processNonPathLine deps ctx (goTrim line)).1 rest := by
        rw [backupLines]
        dsimp only
        rw [if_neg hab, if_pos hcons]
      rw [hL, hS]
      simp
    · by_cases htp : (processNonPathLine deps ctx (goTrim line)).1.targetPath = ""
      · have hS : backupLines deps ctx [line] =
            ({ (processNonPathLine deps ctx (goTrim line)).1 with
                out := (processNonPathLine deps ctx (goTrim line)).1.out ++
                  ["FATAL: " ++ targetErrText] }, LoopOutcome.fatalTarget) := by
          rw [backupLines]
          dsimp only
          rw [if_neg hab, if_neg hcons, if_pos htp]
        have hL : backupLines deps ctx (line :: rest) =
            ({ (processNonPathLine deps ctx (goTrim line)).1 with
                out := (processNonPathLine deps ctx (goTrim line)).1.out ++
                  ["FATAL: " ++ targetErrText] }, LoopOutcome.fatalTarget) := by
          rw [backupLines]
          dsimp only
          rw [if_neg hab, if_neg hcons, if_pos htp]
        rw [hL, hS]
        simp
      · cases hst : deps.stat (goTrim line) with
        | none =>
          by_cases hab2 : (msg deps (processNonPathLine deps ctx (goTrim line)).1
              ("Cannot stat, skipping: " ++ goTrim line)).2 = true
          · have hS : backupLines deps ctx [line] =
                ((msg deps (processNonPathLine deps ctx (goTrim line)).1
                  ("Cannot stat, skipping: " ++ goTrim line)).1, LoopOutcome.panicked) := by
              rw [backupLines]
              dsimp only
              rw [if_neg hab, if_neg hcons, if_neg htp, hst]
              dsimp only
              rw [if_pos hab2]
            have hL : backupLines deps ctx (line :: rest) =
                ((msg deps (processNonPathLine deps ctx (goTrim line)).1
                  ("Cannot stat, skipping: " ++ goTrim line)).1, LoopOutcome.panicked) := by
              rw [backupLines]
              dsimp only
              rw [if_neg hab, if_neg hcons, if_neg htp, hst]
              dsimp only
              rw [if_pos hab2]
            rw [hL, hS]
            simp
          · have hS : backupLines deps ctx [line] =
                ((msg deps (processNonPathLine deps ctx (goTrim line)).1
                  ("Cannot stat, skipping: " ++ goTrim line)).1, LoopOutcome.normal) := by
              rw [backupLines]
              dsimp only
              rw [if_neg hab, if_neg hcons, if_neg htp, hst]
              dsimp only
              rw [if_neg hab2]
              rfl
            have hL : backupLines deps ctx (line :: rest) =
                backupLines deps (msg deps (processNonPathLine deps ctx (goTrim line)).1
                  ("Cannot stat, skipping: " ++ goTrim line)).1 rest := by
              rw [backupLines]
              dsimp only
              rw [if_neg hab, if_neg hcons, if_neg htp, hst]
              dsimp only
              rw [if_neg hab2]
            rw [hL, hS]
            simp
        | some info =>
          by_cases hd : info.isDir = true
          · by_cases hab2 : (handleDir deps
                { (processNonPathLine deps ctx (goTrim line)).1 with
                  out := (processNonPathLine deps ctx (goTrim line)).1.out ++
                    [goTrim line] } (goTrim line)).2 = true
            · have hS : backupLines deps ctx [line] =
                  ((handleDir deps
                    { (processNonPathLine deps ctx (goTrim line)).1 with
                      out := (processNonPathLine deps ctx (goTrim line)).1.out ++
                        [goTrim line] } (goTrim line)).1, LoopOutcome.panicked) := by
                rw [backupLines]
                dsimp only
                rw [if_neg hab, if_neg hcons, if_neg htp, hst]
                dsimp only
                rw [if_pos hd, if_pos hab2]
              have hL : backupLines deps ctx (line :: rest) =
                  ((handleDir deps
                    { (processNonPathLine deps ctx (goTrim line)).1 with
                      out := (processNonPathLine deps ctx (goTrim line)).1.out ++
                        [goTrim line] } (goTrim line)).1, LoopOutcome.panicked) := by
                rw [backupLines]
                dsimp only
                rw [if_neg hab, if_neg hcons, if_neg htp, hst]
                dsimp only
                rw [if_pos hd, if_pos hab2]
              rw [hL, hS]
              simp
            · have hS : backupLines deps ctx [line] =
                  ((handleDir deps
                    { (processNonPathLine deps ctx (goTrim line)).1 with
                      out := (processNonPathLine deps ctx (goTrim line)).1.out ++
                        [goTrim line] } (goTrim line)).1, LoopOutcome.normal) := by
                rw [backupLines]
                dsimp only
                rw [if_neg hab, if_neg hcons, if_neg htp, hst]
                dsimp only
                rw [if_pos hd, if_neg hab2]
                rfl
              have hL : backupLines deps ctx (line :: rest) =
                  backupLines deps (handleDir deps
                    { (processNonPathLine deps ctx (goTrim line)).1 with
                      out := (processNonPathLine deps ctx (goTrim line)).1.out ++
                        [goTrim line] } (goTrim line)).1 rest := by
                rw [backupLines]
                dsimp only
                rw [if_neg hab, if_neg hcons, if_neg htp, hst]
                dsimp only
                rw [if_pos hd, if_neg hab2]
              rw [hL, hS]
              simp
          · by_cases hab2 : (handleFile deps
                { (processNonPathLine deps ctx (goTrim line)).1 with
                  out := (processNonPathLine deps ctx (goTrim line)).1.out ++
                    [goTrim line] } (goTrim line) info).2 = true
            · have hS : backupLines deps ctx [line] =
                  ((handleFile deps
                    { (processNonPathLine deps ctx (goTrim line)).1 with
                      out := (processNonPathLine deps ctx (goTrim line)).1.out ++
                        [goTrim line] } (goTrim line) info).1, LoopOutcome.panicked) := by
                rw [backupLines]
                dsimp only
                rw [if_neg hab, if_neg hcons, if_neg htp, hst]
                dsimp only
                rw [if_neg hd, if_pos hab2]
              have hL : backupLines deps ctx (line :: rest) =
                  ((handleFile deps
                    { (processNonPathLine deps ctx (goTrim line)).1 with
                      out := (processNonPathLine deps ctx (goTrim line)).1.out ++
                        [goTrim line] } (goTrim line) info).1, LoopOutcome.panicked) := by
                rw [backupLines]
                dsimp only
                rw [if_neg hab, if_neg hcons, if_neg htp, hst]
                dsimp only
                rw [if_neg hd, if_pos hab2]
              rw [hL, hS]
              simp
            · have hS : backupLines deps ctx [line] =
                  ((handleFile deps
                    { (processNonPathLine deps ctx (goTrim line)).1 with
                      out := (processNonPathLine deps ctx (goTrim line)).1.out ++
                        [goTrim line] } (goTrim line) info).1, LoopOutcome.normal) := by
                rw [backupLines]
                dsimp only
                rw [if_neg hab, if_neg hcons, if_neg htp, hst]
                dsimp only
                rw [if_neg hd, if_neg hab2]
                rfl
              have hL : backupLines deps ctx (line :: rest) =
                  backupLines deps (handleFile deps
                    { (processNonPathLine deps ctx (goTrim line)).1 with
                      out := (processNonPathLine deps ctx (goTrim line)).1.out ++
                        [goTrim line] } (goTrim line) info).1 rest := by
                rw [backupLines]
                dsimp only
                rw [if_neg hab, if_neg hcons, if_neg htp, hst]
                dsimp only
                rw [if_neg hd, if_neg hab2]
              rw [hL, hS]
              simp

/-- **C2**: whenever the configuration loop ends in the too-many-errors
panic, the run reports exactly `maxErrors` errors — the abort happens the
moment the recorded count reaches the configured maximum, so no more are
gathered; and a line whose processing panics makes the loop ignore every
following configuration line. -/
theorem C2_error_cap (deps : Dependencies R) (config : List String) (dryRun : Bool)
    (hmax : 0 < deps.maxErrors)
    (hpanic : (backupLines deps (initCtx dryRun) config).2 = LoopOutcome.panicked) :
    (Backup deps config dryRun).2 = RunResult.errors deps.maxErrors ∧
    (∀ (ctx : backupContext R) (line : String) (rest : List String),
      (backupLines deps ctx [line]).2 = LoopOutcome.panicked →
      backupLines deps ctx (line :: rest) = backupLines deps ctx [line]) := by
  constructor
  · have hinv := (backupLines_inv deps config (initCtx dryRun)
      (by simpa using hmax)).1 hpanic
    unfold Backup finishRun
    dsimp only
    rw [hpanic]
    rw [if_pos rfl]
    have hne : (backupLines deps (initCtx dryRun) config).1.msgs.length ≠ 0 := by
      rw [hinv]; omega
    simp only [hne]
    rw [if_pos (by simpa using hne), hinv]
  · intro ctx line rest hpan
    rw [backupLines_cons deps ctx line rest,
      if_neg (by rw [hpan]; exact fun hf => LoopOutcome.noConfusion hf)]

/-- Witness for `C2_error_cap`: with the cap at 2 and four stat-failing
sources, the loop panics and the run reports exactly 2 errors — while the
same configuration under the default cap of 100 reports all 4. -/
theorem C2_error_cap_witness :
    (0 < capDeps.maxErrors ∧
      (backupLines capDeps (initCtx false) fourErrConfig).2 = LoopOutcome.panicked) ∧
    (Backup capDeps fourErrConfig false).2 = RunResult.errors 2 ∧
    (Backup baseDeps fourErrConfig false).2 = RunResult.errors 4 := by
  refine ⟨⟨by decide, by decide⟩, ?_, by decide⟩
  exact (C2_error_cap capDeps fourErrConfig false (by decide) (by decide)).1

/-! # Claim C4 -/

/-- `handleFileTail` adds at most one copy event — never a chmod or a
mkdirAll. -/
theorem handleFileTail_events (deps : Dependencies R) (ctx : backupContext R)
    (src dest : String) :
    (handleFileTail deps ctx src dest).1.events = ctx.events ∨
    (handleFileTail deps ctx src dest).1.events =
      ctx.events ++ [FsEvent.copy src dest] := by
  unfold handleFileTail msg
  repeat' split <;> simp_all

/-- A chmod event passes through `handleFileTail` untouched: the tail adds
no chmod. -/
theorem handleFileTail_chmod_mem (deps : Dependencies R) (c : backupContext R)
    (src dest q : String) (m : Nat) :
    (FsEvent.chmod q m ∈ (handleFileTail deps c src dest).1.events) ↔
      FsEvent.chmod q m ∈ c.events := by
  rcases handleFileTail_events deps c src dest with h | h <;> rw [h] <;> simp

/-- **C4**, counterexample: on Windows, with the destination existing, not
older than the source, and read-only (owner-write bit absent), the file is
skipped with **no** chmod call — the event trace stays empty — contrary to
the claim that the read-only marking is cleared before the skip. -/
theorem C4_counterexample :
    winRoDeps.isWin = true ∧
    winRoDeps.stat (destPathOf winRoDeps ctxT.targetPath "/s/f") = some roDest ∧
    roDest.writeBit = false ∧
    ¬(roDest.modTime < syncSrcInfo.modTime) ∧
    (handleFile winRoDeps ctxT "/s/f" syncSrcInfo).1.events = [] ∧
    (handleFile winRoDeps ctxT "/s/f" syncSrcInfo).2 = false := by
  decide

set_option maxHeartbeats 1000000 in
/-- **C4** (amended): when the destination exists, the chmod maintenance
behaves as follows.  If the destination is not older than the source, the
file is skipped with no chmod (and no other call).  If the destination is
stale (older) and the file passed the symlink/size/age/exclude filters,
then exactly when the platform is Windows **and** the destination's
owner-write bit is **present**, a `chmod(destPath, destDirPerm)` call is
made before the copy step; otherwise no chmod call is ever made for this
file. -/
theorem C4_readonly_chmod (deps : Dependencies R) (ctx : backupContext R)
    (p : String) (i d : FileInfo)
    (hstat : deps.stat (destPathOf deps ctx.targetPath p) = some d) :
    (¬(d.modTime < i.modTime) →
      (handleFile deps ctx p i).1.events = ctx.events) ∧
    (i.isSymlink = false → ¬(ctx.maxSize < i.size) → ¬(i.modTime < ctx.startDate) →
      (ctx.exclude.any fun rex => deps.rexMatch rex p) = false →
      d.modTime < i.modTime →
      (((deps.isWin && d.writeBit) = true →
        FsEvent.chmod (destPathOf deps ctx.targetPath p) deps.destDirPerm ∈
          (handleFile deps ctx p i).1.events) ∧
      ((deps.isWin && d.writeBit) = false →
        ∀ q m, FsEvent.chmod q m ∈ (handleFile deps ctx p i).1.events →
          FsEvent.chmod q m ∈ ctx.events))) := by
  constructor
  · intro hfresh
    exact (handleFile_fresh_skip deps ctx p i d hstat hfresh).2.1
  · intro hsym hsize hage hexcl hstale
    unfold destPathOf at hstat ⊢
    constructor
    · intro hwin
      unfold handleFile
      dsimp only
      repeat' split
      all_goals simp_all [handleFileTail_chmod_mem]
    · intro hwin q m
      unfold handleFile
      dsimp only
      repeat' split
      all_goals simp_all [handleFileTail_chmod_mem]

/-- Witness for `C4_readonly_chmod`: on Windows with a writable, stale
destination the chmod call is made with `destDirPerm`. -/
theorem C4_readonly_chmod_witness :
    FsEvent.chmod "/t/s/f" 0o777 ∈
      (handleFile winRwDeps ctxT "/s/f" syncSrcInfo).1.events ∧
    (handleFile winRoDeps ctxT "/s/f" syncSrcInfo).1.events = ctxT.events := by
  constructor
  · exact ((C4_readonly_chmod winRwDeps ctxT "/s/f" syncSrcInfo staleRwDest
      (by decide)).2 rfl (by decide) (by decide) rfl (by decide)).1 rfl
  · exact (C4_readonly_chmod winRoDeps ctxT "/s/f" syncSrcInfo roDest
      (by decide)).1 (by decide)

/-! # Claim C3 -/

/-- The pattern loop never touches the event trace or the dry-run flag. -/
theorem parseParts_frame (deps : Dependencies R) :
    ∀ (parts : List String) (ctx : backupContext R),
    (parseParts deps ctx parts).1.events = ctx.events ∧
    (parseParts deps ctx parts).1.dryRun = ctx.dryRun
  | [], ctx => ⟨rfl, rfl⟩
  | p :: ps, ctx => by
    unfold parseParts
    by_cases hp : p = ""
    · simp only [if_pos hp]
      exact parseParts_frame deps ps ctx
    · simp only [if_neg hp]
      cases hc : deps.compile p with
      | none =>
        by_cases h2 : (msg deps ctx ("Error in exlude regexp: " ++ p)).2
        · simp only [h2, if_pos rfl]
          exact ⟨rfl, rfl⟩
        · simp only [Bool.not_eq_true] at h2
          simp only [h2, Bool.false_eq_true, if_false]
          have hrec := parseParts_frame deps ps
            (msg deps ctx ("Error in exlude regexp: " ++ p)).1
          simpa [msg] using hrec
      | some rex =>
        have hrec := parseParts_frame deps ps { ctx with exclude := ctx.exclude ++ [rex] }
        simpa using hrec

/-- Directive processing never touches the event trace or the dry-run
flag. -/
theorem processNonPathLine_frame (deps : Dependencies R) (ctx : backupContext R)
    (line : String) :
    (processNonPathLine deps ctx line).1.events = ctx.events ∧
    (processNonPathLine deps ctx line).1.dryRun = ctx.dryRun := by
  unfold processNonPathLine parseExclude
  dsimp only
  repeat' split
  all_goals
    first
      | exact ⟨rfl, rfl⟩
      | exact ⟨by simpa using (parseParts_frame deps _ _).1,
          by simpa using (parseParts_frame deps _ _).2⟩

/-- In dry-run mode `handleFileTail` reports and counts but emits no
event. -/
theorem handleFileTail_dry (deps : Dependencies R) (c : backupContext R)
    (src dest : String) (hdry : c.dryRun = true) :
    (handleFileTail deps c src dest).1.events = c.events := by
  unfold handleFileTail
  rw [if_pos hdry]

set_option maxHeartbeats 1600000 in
/-- In dry-run mode `handleFile` emits at most the Windows read-only
maintenance chmod — never a mkdirAll, never a copy — and on a non-Windows
platform nothing at all. -/
theorem handleFile_dry_events (deps : Dependencies R) (ctx : backupContext R)
    (p : String) (i : FileInfo) (hdry : ctx.dryRun = true) :
    ((handleFile deps ctx p i).1.events = ctx.events ∨
     (handleFile deps ctx p i).1.events =
       ctx.events ++ [FsEvent.chmod (destPathOf deps ctx.targetPath p) deps.destDirPerm]) ∧
    (deps.isWin = false → (handleFile deps ctx p i).1.events = ctx.events) := by
  constructor
  · unfold handleFile destPathOf
    simp only [hdry]
    dsimp only
    repeat' split
    all_goals (first | simp_all [handleFileTail_dry] | rfl)
  · intro hw
    unfold handleFile
    simp only [hdry, hw]
    dsimp only
    repeat' split
    all_goals (first | simp_all [handleFileTail_dry] | rfl)

/-- The walk in dry-run mode: every event is a chmod, and none at all on a
non-Windows platform. -/
theorem walkNode_dry (deps : Dependencies R) (t : FsTree) (path : String)
    (ctx : backupContext R) (hdry : ctx.dryRun = true)
    (hch : ∀ e ∈ ctx.events, ∃ q m, e = FsEvent.chmod q m)
    (hwin : deps.isWin = false → ctx.events = []) :
    ((walkNode deps ctx path t).1.dryRun = true ∧
      (∀ e ∈ (walkNode deps ctx path t).1.events, ∃ q m, e = FsEvent.chmod q m) ∧
      (deps.isWin = false → (walkNode deps ctx path t).1.events = [])) := by
  have h := walkNode_preserve deps
    (fun c => c.dryRun = true ∧
      (∀ e ∈ c.events, ∃ q m, e = FsEvent.chmod q m) ∧
      (deps.isWin = false → c.events = []))
    (fun c => c.dryRun = true ∧
      (∀ e ∈ c.events, ∃ q m, e = FsEvent.chmod q m) ∧
      (deps.isWin = false → c.events = []))
    (fun c hc => by exact ⟨hc.1, hc.2.1, hc.2.2⟩)
    t path ctx ⟨hdry, hch, hwin⟩
    (fun pi _ ctx2 hP => by
      have hd := handleFile_dry_events deps ctx2 pi.1 pi.2 hP.1
      have hfr := (handleFile_frame deps ctx2 pi.1 pi.2).2.2.1
      have hall : ∀ e ∈ (handleFile deps ctx2 pi.1 pi.2).1.events,
          ∃ q m, e = FsEvent.chmod q m := by
        rcases hd.1 with h1 | h1 <;> rw [h1]
        · exact hP.2.1
        · intro e he
          rcases List.mem_append.mp he with h2 | h2
          · exact hP.2.1 e h2
          · rcases List.mem_singleton.mp h2 with rfl
            exact ⟨_, _, rfl⟩
      have hwe : deps.isWin = false → (handleFile deps ctx2 pi.1 pi.2).1.events = [] :=
        fun hw => by rw [hd.2 hw]; exact hP.2.2 hw
      exact ⟨(fun _ => ⟨by rw [hfr]; exact hP.1, hall, hwe⟩),
        (fun _ => ⟨by rw [hfr]; exact hP.1, hall, hwe⟩)⟩)
  cases hab : (walkNode deps ctx path t).2
  · exact h.1 hab
  · exact h.2 hab

/-- `handleDir` in dry-run mode: every event is a chmod, and none at all on
a non-Windows platform. -/
theorem handleDir_dry (deps : Dependencies R) (ctx : backupContext R)
    (path : String) (hdry : ctx.dryRun = true)
    (hch : ∀ e ∈ ctx.events, ∃ q m, e = FsEvent.chmod q m)
    (hwin : deps.isWin = false → ctx.events = []) :
    (handleDir deps ctx path).1.dryRun = true ∧
    (∀ e ∈ (handleDir deps ctx path).1.events, ∃ q m, e = FsEvent.chmod q m) ∧
    (deps.isWin = false → (handleDir deps ctx path).1.events = []) := by
  unfold handleDir
  cases htr : deps.fsTree path with
  | none =>
    dsimp only
    by_cases h0 : deps.printDotFileCount ≤ 0
    · simp only [if_pos h0]
      exact ⟨hdry, hch, hwin⟩
    · simp only [if_neg h0]
      exact ⟨hdry, hch, hwin⟩
  | some t =>
    have hw := walkNode_dry deps t path { ctx with count := ⟨0, 0, 0⟩ }
      (by simpa using hdry) (by simpa using hch) (by simpa using hwin)
    dsimp only
    by_cases hab : (walkNode deps { ctx with count := ⟨0, 0, 0⟩ } path t).2 = true
    · rw [if_pos hab]
      exact hw
    · rw [if_neg hab]
      dsimp only
      refine ⟨?_, ?_, ?_⟩ <;> split <;> simp_all

/-- The loop in dry-run mode: every event is a chmod, and none at all on a
non-Windows platform. -/
theorem backupLines_dry (deps : Dependencies R) :
    ∀ (lines : List String) (ctx : backupContext R),
    ctx.dryRun = true →
    (∀ e ∈ ctx.events, ∃ q m, e = FsEvent.chmod q m) →
    (deps.isWin = false → ctx.events = []) →
    (∀ e ∈ (backupLines deps ctx lines).1.events, ∃ q m, e = FsEvent.chmod q m) ∧
    (deps.isWin = false → (backupLines deps ctx lines).1.events = [])
  | [], ctx, _, hch, hwin => ⟨hch, hwin⟩
  | line :: rest, ctx, hdry, hch, hwin => by
    have hpf := processNonPathLine_frame deps ctx (goTrim line)
    unfold backupLines
    dsimp only
    by_cases hab : (processNonPathLine deps ctx (goTrim line)).2.2 = true
    · rw [if_pos hab]
      exact ⟨by rw [hpf.1]; exact hch, fun hw => by rw [hpf.1]; exact hwin hw⟩
    · rw [if_neg hab]
      by_cases hcons : (processNonPathLine deps ctx (goTrim line)).2.1 = true
      · rw [if_pos hcons]
        exact backupLines_dry deps rest _ (by rw [hpf.2]; exact hdry)
          (by rw [hpf.1]; exact hch) (fun hw => by rw [hpf.1]; exact hwin hw)
      · rw [if_neg hcons]
        by_cases htp : (processNonPathLine deps ctx (goTrim line)).1.targetPath = ""
        · rw [if_pos htp]
          exact ⟨by simpa [hpf.1] using hch, fun hw => by simpa [hpf.1] using hwin hw⟩
        · rw [if_neg htp]
          cases hst : deps.stat (goTrim line) with
          | none =>
            dsimp only
            by_cases hab2 : (msg deps (processNonPathLine deps ctx (goTrim line)).1
                ("Cannot stat, skipping: " ++ goTrim line)).2 = true
            · rw [if_pos hab2]
              exact ⟨by simpa [msg, hpf.1] using hch,
                fun hw => by simpa [msg, hpf.1] using hwin hw⟩
            · rw [if_neg hab2]
              exact backupLines_dry deps rest _ (by simpa [msg, hpf.2] using hdry)
                (by simpa [msg, hpf.1] using hch)
                (fun hw => by simpa [msg, hpf.1] using hwin hw)
          | some info =>
            dsimp only
            by_cases hd : info.isDir = true
            · rw [if_pos hd]
              have hh := handleDir_dry deps
                { (processNonPathLine deps ctx (goTrim line)).1 with
                  out := (processNonPathLine deps ctx (goTrim line)).1.out ++
                    [goTrim line] } (goTrim line)
                (by simpa [hpf.2] using hdry) (by simpa [hpf.1] using hch)
                (fun hw => by simpa [hpf.1] using hwin hw)
              by_cases hab2 : (handleDir deps
                  { (processNonPathLine deps ctx (goTrim line)).1 with
                    out := (processNonPathLine deps ctx (goTrim line)).1.out ++
                      [goTrim line] } (goTrim line)).2 = true
              · rw [if_pos hab2]
                exact ⟨hh.2.1, hh.2.2⟩
              · rw [if_neg hab2]
                exact backupLines_dry deps rest _ hh.1 hh.2.1 hh.2.2
            · rw [if_neg hd]
              have hfr := handleFile_frame deps
                { (processNonPathLine deps ctx (goTrim line)).1 with
                  out := (processNonPathLine deps ctx (goTrim line)).1.out ++
                    [goTrim line] } (goTrim line) info
              have hde := handleFile_dry_events deps
                { (processNonPathLine deps ctx (goTrim line)).1 with
                  out := (processNonPathLine deps ctx (goTrim line)).1.out ++
                    [goTrim line] } (goTrim line) info (by simpa [hpf.2] using hdry)
              have hall : ∀ e ∈ (handleFile deps
                  { (processNonPathLine deps ctx (goTrim line)).1 with
                    out := (processNonPathLine deps ctx (goTrim line)).1.out ++
                      [goTrim line] } (goTrim line) info).1.events,
                  ∃ q m, e = FsEvent.chmod q m := by
                rcases hde.1 with h1 | h1 <;> rw [h1]
                · simpa [hpf.1] using hch
                · intro e he
                  rcases List.mem_append.mp he with h2 | h2
                  · refine hch e ?_
                    simpa [hpf.1] using h2
                  · rcases List.mem_singleton.mp h2 with rfl
                    exact ⟨_, _, rfl⟩
              have hwe : deps.isWin = false → (handleFile deps
                  { (processNonPathLine deps ctx (goTrim line)).1 with
                    out := (processNonPathLine deps ctx (goTrim line)).1.out ++
                      [goTrim line] } (goTrim line) info).1.events = [] :=
                fun hw => by rw [hde.2 hw]; simpa [hpf.1] using hwin hw
              by_cases hab2 : (handleFile deps
                  { (processNonPathLine deps ctx (goTrim line)).1 with
                    out := (processNonPathLine deps ctx (goTrim line)).1.out ++
                      [goTrim line] } (goTrim line) info).2 = true
              · rw [if_pos hab2]
                exact ⟨hall, hwe⟩
              · rw [if_neg hab2]
                exact backupLines_dry deps rest _
                  (by rw [hfr.2.2.1]; simpa [hpf.2] using hdry) hall hwe

/-- The deferred reporting block never touches the event trace. -/
theorem finishRun_events (c : backupContext R) (oc : LoopOutcome) :
    (finishRun c oc).1.events = c.events := by
  unfold finishRun
  dsimp only
  repeat' split
  all_goals rfl

/-- **C3**, counterexample: a Windows dry run over a single file whose
destination exists, is stale, and carries the owner-write bit performs a
filesystem mutation — the read-only-maintenance chmod is not guarded by
the dry-run flag — contradicting the claim that in dry-run mode no chmod
is ever invoked. -/
theorem C3_counterexample :
    (Backup dryWinDeps ["=> /t", "/s/f"] true).1.events =
      [FsEvent.chmod "/t/s/f" 0o777] ∧
    (Backup dryWinDeps ["=> /t", "/s/f"] true).2 = RunResult.ok := by
  decide

set_option maxHeartbeats 1600000 in
/-- **C3** (amended): in dry-run mode the engine never invokes mkdirAll or
the copy capability — every event of a dry run is a chmod, and on a
non-Windows platform no event occurs at all (on Windows the
read-only-maintenance chmod can still fire for a stale destination) —
while each file that would be copied (it passes the symlink, size, age and
exclude filters, and its destination is missing or older) is printed and
counted in the copied counter. -/
theorem C3_dry_run_no_mutation (deps : Dependencies R) (config : List String)
    (ctx : backupContext R) (p : String) (i : FileInfo) :
    (∀ e ∈ (Backup deps config true).1.events, ∃ q m, e = FsEvent.chmod q m) ∧
    (deps.isWin = false → (Backup deps config true).1.events = []) ∧
    (ctx.dryRun = true → i.isSymlink = false → ¬(ctx.maxSize < i.size) →
      ¬(i.modTime < ctx.startDate) →
      (ctx.exclude.any fun rex => deps.rexMatch rex p) = false →
      (deps.stat (destPathOf deps ctx.targetPath p) = none ∨
        (∃ d, deps.stat (destPathOf deps ctx.targetPath p) = some d ∧
          d.modTime < i.modTime)) →
      p ∈ (handleFile deps ctx p i).1.out ∧
      (handleFile deps ctx p i).1.count.copied = ctx.count.copied + 1) := by
  have hloop := backupLines_dry deps config (initCtx true) rfl
    (fun e he => absurd he (List.not_mem_nil e)) (fun _ => rfl)
  refine ⟨?_, ?_, ?_⟩
  · intro e he
    refine hloop.1 e ?_
    have hf := finishRun_events
      (backupLines deps (initCtx true : backupContext R) config).1
      (backupLines deps (initCtx true : backupContext R) config).2
    unfold Backup at he
    dsimp only at he
    rw [hf] at he
    exact he
  · intro hw
    have hf := finishRun_events
      (backupLines deps (initCtx true : backupContext R) config).1
      (backupLines deps (initCtx true : backupContext R) config).2
    unfold Backup
    dsimp only
    rw [hf]
    exact hloop.2 hw
  · intro hdry hsym hsize hage hexcl hdest
    unfold handleFile
    dsimp only
    simp only [hdry, Bool.not_true, Bool.false_and, Bool.false_eq_true, if_false]
    simp only [hsym, Bool.false_eq_true, if_false]
    rw [if_neg hsize, if_neg hage]
    simp only [hexcl, Bool.false_eq_true, if_false]
    rcases hdest with hnone | ⟨d, hsome, hstale⟩
    · unfold destPathOf at hnone
      rw [hnone]
      dsimp only
      unfold handleFileTail
      simp [hdry]
    · unfold destPathOf at hsome
      rw [hsome]
      dsimp only
      rw [if_neg (by simp [hstale])]
      by_cases hw : (deps.isWin && d.writeBit) = true
      · rw [if_pos hw]
        unfold handleFileTail
        simp [hdry]
      · rw [if_neg hw]
        unfold handleFileTail
        simp [hdry]

/-- Witness for `C3_dry_run_no_mutation` at concrete inputs. -/
theorem C3_dry_run_no_mutation_witness :
    (∀ e ∈ (Backup baseDeps ["=> /t"] true).1.events, ∃ q m, e = FsEvent.chmod q m) ∧
    (baseDeps.isWin = false → (Backup baseDeps ["=> /t"] true).1.events = []) ∧
    ("/s/f" ∈ (handleFile baseDeps ctxTD "/s/f" syncSrcInfo).1.out ∧
      (handleFile baseDeps ctxTD "/s/f" syncSrcInfo).1.count.copied =
        ctxTD.count.copied + 1) := by
  have h := C3_dry_run_no_mutation baseDeps ["=> /t"] ctxTD "/s/f" syncSrcInfo
  exact ⟨h.1, h.2.1,
    h.2.2 rfl rfl (by decide) (by decide) rfl (Or.inl rfl)⟩

/-! # Claim C8 -/

/-- An `if` that only selects the printed output can be pushed into the
`out` field, leaving every other field of the context in plain form. -/
theorem ite_ctx_out (c : Prop) [Decidable c] (dr : Bool) (tp : String)
    (sd ms : Int) (ex : List R) (ct : backupCounts) (ml o1 o2 : List String)
    (ev : List FsEvent) :
    (if c then
       ({ dryRun := dr, targetPath := tp, startDate := sd, maxSize := ms,
          exclude := ex, count := ct, msgs := ml, out := o1,
          events := ev } : backupContext R)
     else
       { dryRun := dr, targetPath := tp, startDate := sd, maxSize := ms,
         exclude := ex, count := ct, msgs := ml, out := o2, events := ev }) =
      { dryRun := dr, targetPath := tp, startDate := sd, maxSize := ms,
        exclude := ex, count := ct, msgs := ml, out := if c then o1 else o2,
        events := ev } := by
  split
  · rfl
  · rfl

/-- **C8**, counterexample: per-file failures are recoverable only while
the aggregated-message count stays below the cap.  With `maxErrors = 1`, a
copy failure on the first file of a directory aborts the whole run: the
copyable sibling `/s/good` is never processed — no copy event for it
appears — contrary to the claim that processing always continues with the
sibling entries. -/
theorem C8_counterexample :
    cap1Deps.copyResult "/s/good" "/t/s/good" = none ∧
    (Backup cap1Deps ["=> /t", "/s"] false).1.events =
      [FsEvent.mkdirAll "/t/s" 0o770, FsEvent.copy "/s/bad" "/t/s/bad"] ∧
    FsEvent.copy "/s/good" "/t/s/good" ∉
      (Backup cap1Deps ["=> /t", "/s"] false).1.events ∧
    (Backup cap1Deps ["=> /t", "/s"] false).2 = RunResult.errors 1 := by
  decide

set_option maxHeartbeats 1600000 in
/-- **C8** (amended): as long as recording one more message stays below
the error cap, each per-file failure is recoverable: (a) a source stat
failure records `Cannot stat, skipping:` and the loop continues with the
remaining lines; (b) a destination-directory creation failure records
`Cannot create dirs for:`, skips the file (nothing copied, the only event
added is the attempted mkdirAll) and does not abort; (c) a copy failure
records the copy error, counts nothing copied and does not abort; and (d)
a non-aborting entry lets the traversal continue with the sibling
entries.  (When the recorded message reaches the cap, the run aborts
instead — the situation of the counterexample, covered by C2.) -/
theorem C8_per_file_recoverable (deps : Dependencies R) (ctx : backupContext R)
    (line p : String) (i : FileInfo) (rest : List String) (t : FsTree)
    (ts : FsForest) (parent : String) :
    (lineConsumed (goTrim line) = false → ctx.targetPath ≠ "" →
      deps.stat (goTrim line) = none →
      ctx.msgs.length + 1 < deps.maxErrors →
      backupLines deps ctx (line :: rest) =
        backupLines deps
          { ctx with msgs := ctx.msgs ++ ["Cannot stat, skipping: " ++ goTrim line] }
          rest) ∧
    (i.isSymlink = false → ¬(ctx.maxSize < i.size) → ¬(i.modTime < ctx.startDate) →
      (ctx.exclude.any fun rex => deps.rexMatch rex p) = false →
      ctx.dryRun = false →
      deps.stat (destPathOf deps ctx.targetPath p) = none →
      deps.mkdirAllOk (deps.dirName (destPathOf deps ctx.targetPath p)) = false →
      ctx.msgs.length + 1 < deps.maxErrors →
      (handleFile deps ctx p i).2 = false ∧
      (handleFile deps ctx p i).1.msgs =
        ctx.msgs ++ ["Cannot create dirs for: " ++ destPathOf deps ctx.targetPath p] ∧
      (handleFile deps ctx p i).1.count.copied = ctx.count.copied ∧
      ∀ e ∈ (handleFile deps ctx p i).1.events, e ∈ ctx.events ∨
        e = FsEvent.mkdirAll (deps.dirName (destPathOf deps ctx.targetPath p))
          deps.destDirPerm) ∧
    (∀ dest e : String, ctx.dryRun = false →
      deps.copyResult p dest = some e →
      ctx.msgs.length + 1 < deps.maxErrors →
      handleFileTail deps ctx p dest =
        ({ ctx with events := ctx.events ++ [FsEvent.copy p dest],
                    msgs := ctx.msgs ++ [e] }, false)) ∧
    ((walkNode deps ctx (childPath deps parent t) t).2 = false →
      walkForest deps ctx parent (FsForest.cons t ts) =
        walkForest deps (walkNode deps ctx (childPath deps parent t) t).1
          parent ts) := by
  refine ⟨?_, ?_, ?_, ?_⟩
  · intro hline htp hst hcap
    have hp := processNonPathLine_not_consumed deps ctx (goTrim line) hline
    have hno : decide (deps.maxErrors ≤
        (ctx.msgs ++ ["Cannot stat, skipping: " ++ goTrim line]).length) = false := by
      simp only [decide_eq_false_iff_not, List.length_append, List.length_cons,
        List.length_nil]
      omega
    rw [backupLines]
    dsimp only
    rw [hp]
    dsimp only
    simp only [Bool.false_eq_true, if_false]
    rw [if_neg htp, hst]
    dsimp only [msg]
    rw [hno]
    simp only [Bool.false_eq_true, if_false]
  · intro hsym hsize hage hexcl hndry hstat hmk hcap
    have hno : decide (deps.maxErrors ≤ (ctx.msgs ++
        ["Cannot create dirs for: " ++ destPathOf deps ctx.targetPath p]).length)
        = false := by
      simp only [decide_eq_false_iff_not, List.length_append, List.length_cons,
        List.length_nil]
      omega
    unfold destPathOf at hstat hmk hno ⊢
    unfold handleFile
    dsimp only
    rw [ite_ctx_out]
    dsimp only
    simp only [hsym, Bool.false_eq_true, if_false]
    rw [if_neg hsize, if_neg hage]
    simp only [hexcl, Bool.false_eq_true, if_false]
    rw [hstat]
    dsimp only
    simp only [hndry, Bool.not_false, if_true]
    try dsimp only
    rw [if_neg (by simp [hmk])]
    refine ⟨hno, rfl, rfl, ?_⟩
    intro e he
    rcases List.mem_append.mp he with h | h
    · exact Or.inl h
    · exact Or.inr (List.mem_singleton.mp h)
  · intro dest e hndry hcpy hcap
    have hno : decide (deps.maxErrors ≤ (ctx.msgs ++ [e]).length) = false := by
      simp only [decide_eq_false_iff_not, List.length_append, List.length_cons,
        List.length_nil]
      omega
    unfold handleFileTail
    simp only [hndry, Bool.false_eq_true, if_false]
    rw [hcpy]
    dsimp only [msg]
    rw [hno]
    try rfl
  · intro hok
    have heq : walkForest deps ctx parent (FsForest.cons t ts) =
        (if (walkNode deps ctx (childPath deps parent t) t).2 = true
         then walkNode deps ctx (childPath deps parent t) t
         else walkForest deps (walkNode deps ctx (childPath deps parent t) t).1
           parent ts) := rfl
    rw [heq, if_neg (by simp [hok])]

/-- Witness for `C8_per_file_recoverable` at concrete inputs: failing
stat, mkdirAll and copy collaborators under the default cap of 100. -/
theorem C8_per_file_recoverable_witness :
    (backupLines failDeps ctxT ["/n1"] =
      backupLines failDeps
        { ctxT with msgs := ctxT.msgs ++ ["Cannot stat, skipping: " ++ goTrim "/n1"] }
        []) ∧
    ((handleFile failDeps ctxT "/s/f" syncSrcInfo).2 = false ∧
      (handleFile failDeps ctxT "/s/f" syncSrcInfo).1.msgs =
        ctxT.msgs ++
          ["Cannot create dirs for: " ++ destPathOf failDeps ctxT.targetPath "/s/f"] ∧
      (handleFile failDeps ctxT "/s/f" syncSrcInfo).1.count.copied =
        ctxT.count.copied ∧
      ∀ e ∈ (handleFile failDeps ctxT "/s/f" syncSrcInfo).1.events,
        e ∈ ctxT.events ∨
        e = FsEvent.mkdirAll
          (failDeps.dirName (destPathOf failDeps ctxT.targetPath "/s/f"))
          failDeps.destDirPerm) ∧
    (handleFileTail failDeps ctxT "/s/f" "/t/s/f" =
      ({ ctxT with events := ctxT.events ++ [FsEvent.copy "/s/f" "/t/s/f"],
                   msgs := ctxT.msgs ++ ["copy failed"] }, false)) ∧
    (walkForest failDeps ctxT "/s" (FsForest.cons (FsTree.file "f" none) FsForest.nil) =
      walkForest failDeps
        (walkNode failDeps ctxT (childPath failDeps "/s" (FsTree.file "f" none))
          (FsTree.file "f" none)).1 "/s" FsForest.nil) := by
  have h := C8_per_file_recoverable failDeps ctxT "/n1" "/s/f" syncSrcInfo []
    (FsTree.file "f" none) FsForest.nil "/s"
  exact ⟨h.1 (by decide) (by decide) rfl (by decide),
    h.2.1 rfl (by decide) (by decide) rfl rfl rfl rfl (by decide),
    h.2.2.1 "/t/s/f" "copy failed" rfl rfl (by decide),
    h.2.2.2 rfl⟩

/-! # Claim C10 -/

/-- Every event `handleFile` adds beyond the ones already traced is one of
the shaped mutations for its source path under the current target root: a
chmod of the destination path, a mkdirAll of the destination path's
lexical parent, or a copy from the source to the destination path. -/
theorem handleFile_events_mem (deps : Dependencies R) (ctx : backupContext R)
    (p : String) (i : FileInfo) :
    ∀ e ∈ (handleFile deps ctx p i).1.events,
      e ∈ ctx.events ∨ mutationShaped deps ctx.targetPath p e := by
  have htail : ∀ (c : backupContext R) (e : FsEvent),
      e ∈ (handleFileTail deps c p
        (ctx.targetPath ++ strDrop p (deps.volumeName p).length)).1.events →
      e ∈ c.events ∨ mutationShaped deps ctx.targetPath p e := by
    intro c e he
    rcases handleFileTail_events deps c p
      (ctx.targetPath ++ strDrop p (deps.volumeName p).length) with h | h
    · rw [h] at he
      exact Or.inl he
    · rw [h] at he
      rcases List.mem_append.mp he with h2 | h2
      · exact Or.inl h2
      · rcases List.mem_singleton.mp h2 with rfl
        exact Or.inr ⟨rfl, rfl⟩
  intro e he
  unfold handleFile at he
  dsimp only at he
  repeat' split at he
  all_goals try simp only [msg] at he
  all_goals try exact Or.inl he
  all_goals
    try (rcases List.mem_append.mp he with h2 | h2
         · exact Or.inl h2
         · rcases List.mem_singleton.mp h2 with rfl
           exact Or.inr ⟨rfl, rfl⟩)
  all_goals
    try (rcases htail _ e he with h | h
         · try dsimp only at h
           first
             | exact Or.inl h
             | (rcases List.mem_append.mp h with h2 | h2
                · exact Or.inl h2
                · rcases List.mem_singleton.mp h2 with rfl
                  exact Or.inr ⟨rfl, rfl⟩)
         · exact Or.inr h)

/-- **C10**, counterexample: the engine re-roots a source path by plain
string concatenation, so with target root `/b` (no trailing separator)
and the relative source file `f1`, the destination path is `/bf1` and the
mkdirAll call receives its lexical parent `/` — a path that does not
begin with the current targetPath `/b` — contrary to the claim that every
mutating call receives a path beginning with targetPath. -/
theorem C10_counterexample :
    (backupLines relDeps (initCtx false) ["=> /b", "f1"]).1.targetPath = "/b" ∧
    (Backup relDeps ["=> /b", "f1"] false).1.events =
      [FsEvent.mkdirAll "/" 0o770, FsEvent.copy "f1" "/bf1"] ∧
    ¬∃ r, ("/" : String) = "/b" ++ r := by
  refine ⟨by decide, by decide, ?_⟩
  rintro ⟨r, hr⟩
  have h2 := congrArg String.data hr
  simp [String.data_append] at h2

/-- **C10** (amended): the destination side of every mutating call is
derived from the current targetPath — every event `handleFile` emits for
source `p` is a chmod of `destPath`, a mkdirAll of the lexical parent
`dirName destPath`, or a copy to `destPath`, where
`destPath = targetPath ++ (p minus its volume prefix)`; every event a
directory walk emits has that shape for some visited source path; and
`destPath` itself always begins with targetPath.  The chmod and copy
destinations therefore extend targetPath, but the mkdirAll argument is
the lexical **parent** of `destPath`, which can fall outside targetPath
(the counterexample); the source tree itself is never the destination of
any call unless string concatenation makes it so. -/
theorem C10_mutation_shape (deps : Dependencies R) (ctx : backupContext R)
    (p path : String) (i : FileInfo) :
    (∀ e ∈ (handleFile deps ctx p i).1.events,
      e ∈ ctx.events ∨ mutationShaped deps ctx.targetPath p e) ∧
    (∀ e ∈ (handleDir deps ctx path).1.events,
      e ∈ ctx.events ∨ ∃ src, mutationShaped deps ctx.targetPath src e) ∧
    (∀ tp src, ∃ rest, destPathOf deps tp src = tp ++ rest) := by
  refine ⟨handleFile_events_mem deps ctx p i, ?_,
    fun tp src => ⟨strDrop src (deps.volumeName src).length, rfl⟩⟩
  have hwalk : ∀ t : FsTree,
      ∀ e ∈ (walkNode deps { ctx with count := ⟨0, 0, 0⟩ } path t).1.events,
        e ∈ ctx.events ∨ ∃ src, mutationShaped deps ctx.targetPath src e := by
    intro t
    have h := walkNode_preserve deps
      (fun c => c.targetPath = ctx.targetPath ∧
        ∀ e ∈ c.events, e ∈ ctx.events ∨ ∃ src, mutationShaped deps ctx.targetPath src e)
      (fun c => c.targetPath = ctx.targetPath ∧
        ∀ e ∈ c.events, e ∈ ctx.events ∨ ∃ src, mutationShaped deps ctx.targetPath src e)
      (fun c hc => hc)
      t path { ctx with count := ⟨0, 0, 0⟩ }
      ⟨rfl, fun e he => Or.inl he⟩
      (fun pi _ ctx2 hc2 => by
        have hP2 : (handleFile deps ctx2 pi.1 pi.2).1.targetPath = ctx.targetPath ∧
            ∀ e ∈ (handleFile deps ctx2 pi.1 pi.2).1.events,
              e ∈ ctx.events ∨ ∃ src, mutationShaped deps ctx.targetPath src e := by
          constructor
          · rw [(handleFile_frame deps ctx2 pi.1 pi.2).2.1]
            exact hc2.1
          · intro e he
            rcases handleFile_events_mem deps ctx2 pi.1 pi.2 e he with h2 | h2
            · exact hc2.2 e h2
            · rw [hc2.1] at h2
              exact Or.inr ⟨pi.1, h2⟩
        exact ⟨fun _ => hP2, fun _ => hP2⟩)
    by_cases hab : (walkNode deps { ctx with count := ⟨0, 0, 0⟩ } path t).2 = true
    · exact (h.2 hab).2
    · exact (h.1 (by simpa using hab)).2
  cases htr : deps.fsTree path with
  | none =>
    have heq : handleDir deps ctx path =
        (let c1 : backupContext R := { ctx with count := ⟨0, 0, 0⟩ }
         let c2 :=
           if deps.printDotFileCount ≤ c1.count.files
           then { c1 with out := c1.out ++ [""] } else c1
         ({ c2 with out := c2.out ++ [summaryLine c2.count] }, false)) := by
      unfold handleDir
      rw [htr]
      rfl
    rw [heq]
    dsimp only
    intro e he
    refine Or.inl ?_
    by_cases h0 : deps.printDotFileCount ≤ 0
    · rw [if_pos h0] at he
      exact he
    · rw [if_neg h0] at he
      exact he
  | some t =>
    have heq : handleDir deps ctx path =
        (if (walkNode deps { ctx with count := ⟨0, 0, 0⟩ } path t).2 = true
         then walkNode deps { ctx with count := ⟨0, 0, 0⟩ } path t
         else
          let c1 := (walkNode deps { ctx with count := ⟨0, 0, 0⟩ } path t).1
          let c2 :=
            if deps.printDotFileCount ≤ c1.count.files
            then { c1 with out := c1.out ++ [""] } else c1
          ({ c2 with out := c2.out ++ [summaryLine c2.count] }, false)) := by
      unfold handleDir
      rw [htr]
    rw [heq]
    by_cases hab : (walkNode deps { ctx with count := ⟨0, 0, 0⟩ } path t).2 = true
    · rw [if_pos hab]
      exact hwalk t
    · rw [if_neg hab]
      dsimp only
      intro e he
      refine hwalk t e ?_
      by_cases h0 : deps.printDotFileCount ≤
          (walkNode deps { ctx with count := ⟨0, 0, 0⟩ } path t).1.count.files
      · rw [if_pos h0] at he
        exact he
      · rw [if_neg h0] at he
        exact he

/-- Witness for `C10_mutation_shape` at concrete inputs: the mkdirAll the
relative-source run emits is shaped, and the destination path extends the
target root. -/
theorem C10_mutation_shape_witness :
    (FsEvent.mkdirAll "/" 0o770 ∈ ctxB.events ∨
      mutationShaped relDeps ctxB.targetPath "f1" (FsEvent.mkdirAll "/" 0o770)) ∧
    (∃ rest, destPathOf relDeps "/b" "f1" = "/b" ++ rest) := by
  have h := C10_mutation_shape relDeps ctxB "f1" "/s" syncSrcInfo
  refine ⟨h.1 (FsEvent.mkdirAll "/" 0o770) ?_, h.2.2 "/b" "f1"⟩
  have hev : (handleFile relDeps ctxB "f1" syncSrcInfo).1.events =
      [FsEvent.mkdirAll "/" 0o770, FsEvent.copy "f1" "/bf1"] := by decide
  rw [hev]
  simp

end LocalBackup
